import Mathlib

/-!
Shallow embedding of the Pacemaker scheduler constraint unpacker
(lib/pacemaker constraint unpacking, file given as src/unnamed/part_000) and of
the clone notification payload builder (src/lib/pengine/pe_notif.c), together
with theorems checking the natural-language specification against the code.

Machine integers of the C code are modelled as Int (scores fit well inside the
modelled range, Pacemaker clamps scores to plus or minus 1000000). C strings
are Lean String values; NULL-able C strings are Option String. GLib lists are
Lean lists; the GLib hash tables that the code iterates are modelled by the
list of their values in iteration order, which is passed in explicitly where
the iteration order is observable.
-/

namespace Pacemaker

/- ===== String helpers shared by the constraint unpacker ===== -/

/-- ASCII code of a character after lower-casing, the folding strcasecmp
applies per byte. -/
def charFold (c : Char) : Nat :=
  if 65 ≤ c.toNat && c.toNat ≤ 90 then c.toNat + 32 else c.toNat

/-- Embedding of pcmk__str_eq with pcmk__str_casei: case-insensitive string
equality. The helper lives in lib/common/strings.c, outside the provided
sources; its casei comparison is strcasecmp, ASCII case folding per byte. -/
def strCaseEq (a b : String) : Bool :=
  a.data.map charFold == b.data.map charFold

/-- Value of one decimal digit character, or none. -/
def digitVal (c : Char) : Option Nat :=
  if 48 ≤ c.toNat && c.toNat ≤ 57 then some (c.toNat - 48) else none

/-- Parses a nonempty all-digit character list as a natural number. -/
def parseNatList : List Char → Nat → Option Nat
  | [], acc => some acc
  | c :: rest, acc =>
    match digitVal c with
    | some d => parseNatList rest (acc * 10 + d)
    | none => none

/-- Embedding of strtoll-style integer parsing as the C scanners use it: an
optional sign followed by decimal digits; anything else fails. -/
def toIntS (s : String) : Option Int :=
  match s.data with
  | [] => none
  | c :: rest =>
    if c = '-' then
      match rest with
      | [] => none
      | _ => (parseNatList rest 0).map (fun n => -(n : Int))
    else if c = '+' then
      match rest with
      | [] => none
      | _ => (parseNatList rest 0).map (fun n => (n : Int))
    else (parseNatList (c :: rest) 0).map (fun n => (n : Int))

/-- Modelled from the spec: crm_str_to_boolean lives in lib/common/strings.c,
which is not under src/. It recognises the usual truth words, case
insensitively, and reports anything else as unparsable (none). -/
def crm_str_to_boolean (s : String) : Option Bool :=
  if strCaseEq s "true" || strCaseEq s "on" || strCaseEq s "yes"
      || strCaseEq s "y" || strCaseEq s "1" then some true
  else if strCaseEq s "false" || strCaseEq s "off" || strCaseEq s "no"
      || strCaseEq s "n" || strCaseEq s "0" then some false
  else none

/-- Modelled from the spec: crm_is_true (lib/common/strings.c, not under src/)
is true exactly when the string parses as boolean true; NULL and unparsable
strings count as false. -/
def crm_is_true_s (s : String) : Bool := (crm_str_to_boolean s).getD false

/-- Embedding of crm_is_true applied to a NULL-able string. -/
def crm_is_true (s : Option String) : Bool :=
  match s with
  | none => false
  | some s => crm_is_true_s s

/-- Modelled from the spec: char2score (lib/common/scores.c, not under src/)
maps the INFINITY words to the score bound 1000000 and otherwise parses an
integer, clamped into the score range; unparsable text scores 0. -/
def char2score (s : String) : Int :=
  if s = "INFINITY" || s = "+INFINITY" then 1000000
  else if s = "-INFINITY" then -1000000
  else min 1000000 (max (-1000000) ((toIntS s).getD 0))

/-- Modelled from the spec: pcmk__scan_min_int (lib/common/strings.c, not under
src/) parses an integer no smaller than the given minimum; parse failure
yields the minimum. -/
def pcmk__scan_min_int (s : String) (minimum : Int) : Int :=
  max minimum ((toIntS s).getD minimum)

/- ===== Task name constants =====

The RSC_* task names and the CRM_OP_* pseudo-operation names are macros from
include/crm/crm.h, which is not under src/; their string values are fixed
protocol constants of the repository. -/

/-- Task name constant RSC_START from include/crm/crm.h. -/
def RSC_START : String := "start"

/-- Task name constant RSC_STARTED from include/crm/crm.h. -/
def RSC_STARTED : String := "running"

/-- Task name constant RSC_STOP from include/crm/crm.h. -/
def RSC_STOP : String := "stop"

/-- Task name constant RSC_STOPPED from include/crm/crm.h. -/
def RSC_STOPPED : String := "stopped"

/-- Task name constant RSC_PROMOTE from include/crm/crm.h. -/
def RSC_PROMOTE : String := "promote"

/-- Task name constant RSC_PROMOTED from include/crm/crm.h. -/
def RSC_PROMOTED : String := "promoted"

/-- Task name constant RSC_DEMOTE from include/crm/crm.h. -/
def RSC_DEMOTE : String := "demote"

/-- Task name constant RSC_DEMOTED from include/crm/crm.h. -/
def RSC_DEMOTED : String := "demoted"

/-- Task name constant RSC_MIGRATE (migrate_to) from include/crm/crm.h. -/
def RSC_MIGRATE : String := "migrate_to"

/-- Task name constant RSC_MIGRATED (migrate_from) from include/crm/crm.h. -/
def RSC_MIGRATED : String := "migrate_from"

/-- Pseudo-op name constant CRM_OP_RELAXED_SET from include/crm/crm.h. -/
def CRM_OP_RELAXED_SET : String := "one-or-more"

/-- Pseudo-op name constant CRM_OP_RELAXED_CLONE from include/crm/crm.h. -/
def CRM_OP_RELAXED_CLONE : String := "clone-one-or-more"

/- ===== Diagnostics ===== -/

/-- Diagnostics emitted while unpacking; severities follow the C logging
macros (pcmk__config_err, pcmk__config_warn, crm_warn, pe_warn_once,
crm_trace). -/
inductive Diag where
  | configErr (msg : String)
  | configWarn (msg : String)
  | warnMsg (msg : String)
  | warnOnce (which : String)
  | traceMsg (msg : String)
deriving DecidableEq, Repr

/- ===== Ordering kinds, symmetry and flags (part_000 lines 29-39, 332-369) ===== -/

/-- Embedding of enum pe_order_kind. -/
inductive PeOrderKind where
  | optionalK
  | mandatory
  | serialize
deriving DecidableEq, Repr

/-- Embedding of enum ordering_symmetry. -/
inductive OrderingSymmetry where
  | asymmetric
  | symmetric
  | symmetricInverse
deriving DecidableEq, Repr

/-- Embedding of the enum pe_ordering flag bits that the unpacker sets, one
Bool field per bit. -/
structure OrderFlags where
  optionalF : Bool := false
  serializeOnly : Bool := false
  impliesThen : Bool := false
  impliesFirst : Bool := false
  runnableLeft : Bool := false
  asymmetrical : Bool := false
  antiColocation : Bool := false
  oneOrMore : Bool := false
  impliesThenPrinted : Bool := false
  applyFirstNonMigratable : Bool := false
deriving DecidableEq, Repr

/-- Bitwise or of two flag sets, the embedding of flags |= other. -/
def OrderFlags.orF (a b : OrderFlags) : OrderFlags where
  optionalF := a.optionalF || b.optionalF
  serializeOnly := a.serializeOnly || b.serializeOnly
  impliesThen := a.impliesThen || b.impliesThen
  impliesFirst := a.impliesFirst || b.impliesFirst
  runnableLeft := a.runnableLeft || b.runnableLeft
  asymmetrical := a.asymmetrical || b.asymmetrical
  antiColocation := a.antiColocation || b.antiColocation
  oneOrMore := a.oneOrMore || b.oneOrMore
  impliesThenPrinted := a.impliesThenPrinted || b.impliesThenPrinted
  applyFirstNonMigratable := a.applyFirstNonMigratable || b.applyFirstNonMigratable

/-- Embedding of invert_action (part_000 lines 126-155): the inverse task for
the symmetric inverse of an ordering, or none (with a warning at the caller)
for a task with no defined inverse. -/
def invert_action (action : String) : Option String :=
  if strCaseEq action RSC_START then some RSC_STOP
  else if strCaseEq action RSC_STOP then some RSC_START
  else if strCaseEq action RSC_PROMOTE then some RSC_DEMOTE
  else if strCaseEq action RSC_DEMOTE then some RSC_PROMOTE
  else if strCaseEq action RSC_PROMOTED then some RSC_DEMOTED
  else if strCaseEq action RSC_DEMOTED then some RSC_PROMOTED
  else if strCaseEq action RSC_STARTED then some RSC_STOPPED
  else if strCaseEq action RSC_STOPPED then some RSC_STARTED
  else none

/-- Embedding of get_ordering_type (part_000 lines 157-195) on the kind and
score attributes of the ordering XML. An invalid kind value logs a
configuration error and leaves the kind at Mandatory (the initial value);
a legacy score logs a once-per-run deprecation warning and maps score 0 to
Optional, everything else to Mandatory. -/
def get_ordering_type (kindAttr scoreAttr : Option String) :
    PeOrderKind × List Diag :=
  match kindAttr with
  | none =>
    match scoreAttr with
    | none => (PeOrderKind.mandatory, [])
    | some s =>
      let k := if char2score s = 0 then PeOrderKind.optionalK
               else PeOrderKind.mandatory
      (k, [Diag.warnOnce "order-score-deprecated"])
  | some kind =>
    if strCaseEq kind "Mandatory" then (PeOrderKind.mandatory, [])
    else if strCaseEq kind "Optional" then (PeOrderKind.optionalK, [])
    else if strCaseEq kind "Serialize" then (PeOrderKind.serialize, [])
    else (PeOrderKind.mandatory, [Diag.configErr "invalid-kind"])

/-- Embedding of get_ordering_symmetry (part_000 lines 283-320). The explicit
kind or score attribute overrides the parent kind; an explicit symmetrical
setting (own or inherited) is honoured except that symmetrical=true with
Serialize is ignored with a warning; default symmetry is symmetric except for
Serialize. -/
def get_ordering_symmetry (kindAttr scoreAttr symAttr parentSymAttr : Option String)
    (parentKind : PeOrderKind) : OrderingSymmetry × List Diag :=
  let kd : PeOrderKind × List Diag :=
    if kindAttr.isSome || scoreAttr.isSome then get_ordering_type kindAttr scoreAttr
    else (parentKind, [])
  let kind := kd.1
  let diags := kd.2
  let symS := match symAttr with
              | some s => some s
              | none => parentSymAttr
  match symS with
  | some s =>
    if crm_is_true_s s then
      if kind = PeOrderKind.serialize then
        (OrderingSymmetry.asymmetric, diags ++ [Diag.configWarn "symmetrical-with-serialize"])
      else (OrderingSymmetry.symmetric, diags)
    else (OrderingSymmetry.asymmetric, diags)
  | none =>
    if kind = PeOrderKind.serialize then (OrderingSymmetry.asymmetric, diags)
    else (OrderingSymmetry.symmetric, diags)

/-- Embedding of ordering_flags_for_kind (part_000 lines 332-369). The first
task may be NULL at one caller (order_rsc_sets after a failed inversion),
hence the Option. -/
def ordering_flags_for_kind (kind : PeOrderKind) (first : Option String)
    (symmetry : OrderingSymmetry) : OrderFlags :=
  let flags : OrderFlags := { optionalF := true }
  match kind with
  | PeOrderKind.optionalK => flags
  | PeOrderKind.serialize => { flags with serializeOnly := true }
  | PeOrderKind.mandatory =>
    match symmetry with
    | OrderingSymmetry.asymmetric => { flags with asymmetrical := true }
    | OrderingSymmetry.symmetric =>
      let flags := { flags with impliesThen := true }
      match first with
      | some f =>
        if strCaseEq f RSC_START || strCaseEq f RSC_PROMOTE then
          { flags with runnableLeft := true }
        else flags
      | none => flags
    | OrderingSymmetry.symmetricInverse => { flags with impliesFirst := true }

/- ===== Resources and the working set ===== -/

/-- Flat data of one resource, as the ordering code reads it: the id, the
variant tag (pe_obj_types, clones are 2), allocation priority, the flag bits
pe_rsc_promotable, pe_rsc_allow_migrate and pe_rsc_critical, the deprecated
restart-type=restart marker, partial_migration_target as a Bool, the ids of
all ancestors (C walks parent pointers), and the clone-min meta-attribute
text. -/
structure RscData where
  id : String
  variant : Int := 0
  priority : Int := 0
  promotable : Bool := false
  allowMigrate : Bool := false
  partialMigrationTargetSet : Bool := false
  critical : Bool := false
  restartRestart : Bool := false
  parents : List String := []
  cloneMin : Option String := none
deriving DecidableEq, Repr

/-- A resource together with its (flattened) children, which the clone-min
code iterates. Grandchildren are not observable by the embedded functions. -/
structure Resource where
  data : RscData
  children : List RscData := []
deriving DecidableEq, Repr

/-- Embedding of pe_rsc_is_clone: the variant is pe_clone (2). -/
def RscData.isClone (r : RscData) : Bool := r.variant = 2

/-- Modelled from the spec: is_parent (lib/pengine, not under src/) walks the
parent links of its first argument looking for the second; ancestry is
modelled by the list of ancestor ids. -/
def isParent (child rsc : RscData) : Bool := rsc.id ∈ child.parents

/-- Embedding of a pseudo-action as created by get_pseudo_op, with the two
fields that clone_min_ordering and order_rsc_sets set on it. -/
structure PseudoAction where
  task : String
  requiredRunnableBefore : Int := 0
  requiresAny : Bool := false
deriving DecidableEq, Repr

/-- One endpoint pair plus flags of an ordering: either a resource id and a
task (built from an operation key), or a pseudo-action referenced by its
task name (such endpoints have a NULL resource in C). -/
structure OrderSpec where
  lhRsc : Option RscData := none
  lhTask : Option String := none
  lhPseudo : Option String := none
  rhRsc : Option RscData := none
  rhTask : Option String := none
  rhPseudo : Option String := none
  flags : OrderFlags := {}
deriving DecidableEq, Repr

/-- Embedding of pe__ordering_t: an OrderSpec stamped with its order id. -/
structure OrderCon extends OrderSpec where
  idNum : Int
deriving DecidableEq, Repr

/-- Embedding of a colocation constraint record pcmk__colocation_t. Roles are
kept as the pe role enum. -/
inductive RscRole where
  | unknownR
  | stopped
  | started
  | unpromoted
  | promoted
deriving DecidableEq, Repr

/-- Modelled from the spec: text2role (lib/common, not under src/) parses the
role names used in constraints, case insensitively, with the legacy Slave and
Master words for the promotion roles; anything else is the unknown role. -/
def text2role (s : String) : RscRole :=
  if strCaseEq s "Stopped" then RscRole.stopped
  else if strCaseEq s "Started" then RscRole.started
  else if strCaseEq s "Slave" || strCaseEq s "Unpromoted" then RscRole.unpromoted
  else if strCaseEq s "Master" || strCaseEq s "Promoted" then RscRole.promoted
  else RscRole.unknownR

/-- Embedding of pcmk__colocation_t as filled in by pcmk__new_colocation. -/
structure Colocation where
  id : String
  rscLh : RscData
  rscRh : RscData
  score : Int
  roleLh : RscRole
  roleRh : RscRole
  nodeAttribute : Option String
  influence : Bool
deriving DecidableEq, Repr

/-- Embedding of the slice of pe_working_set_t that the unpacker mutates:
the resource list, the monotone order id counter, the ordering constraint
list (GLib prepend order), the pseudo-action registry, the colocation list
(GLib append order), the per-resource sorted colocation lists rsc_cons and
rsc_cons_lhs keyed by resource id, and the diagnostics emitted so far. -/
structure DataSet where
  resources : List Resource := []
  orderId : Int := 1
  orderings : List OrderCon := []
  pseudoActions : List PseudoAction := []
  colocations : List Colocation := []
  rscCons : List (String × List Colocation) := []
  rscConsLhs : List (String × List Colocation) := []
  templateRscSets : List (String × Option (List String)) := []
  tags : List (String × Option (List String)) := []
  diags : List Diag := []
deriving DecidableEq, Repr

/-- Appends diagnostics to the working set. -/
def DataSet.addDiags (ds : DataSet) (d : List Diag) : DataSet :=
  { ds with diags := ds.diags ++ d }

/-- Embedding of pe_find_constraint_resource (part_000 lines 197-218):
searches the resource list for an exact id match. The find_rsc method it
delegates to lives outside src/; renamed-clone-instance matching is not
exercised by the claims and is modelled as plain id lookup. -/
def pe_find_constraint_resource (rscs : List Resource) (id : String) :
    Option Resource :=
  rscs.find? (fun r => r.data.id == id)

/-- Embedding of g_list_insert_sorted: insert before the first element that
does not compare strictly earlier than the new one. -/
def gListInsertSorted (cmp : α → α → Int) (x : α) : List α → List α
  | [] => [x]
  | y :: ys => if cmp x y > 0 then y :: gListInsertSorted cmp x ys
               else x :: y :: ys

/-- Embedding of strcmp as a three-way integer comparison on strings. -/
def strcmpZ (a b : String) : Int :=
  if a < b then -1 else if a = b then 0 else 1

/-- Modelled from the spec: get_pseudo_op (lib/pacemaker scheduler utilities,
not under src/) returns the existing pseudo-action with the given task name
or registers a fresh one. -/
def get_pseudo_op (task : String) (ds : DataSet) : DataSet :=
  match ds.pseudoActions.find? (fun p => p.task == task) with
  | some _ => ds
  | none => { ds with pseudoActions := ds.pseudoActions ++ [{ task := task }] }

/-- Applies an update to the registered pseudo-action with the given task,
the embedding of mutating the pe_action_t returned by get_pseudo_op. -/
def DataSet.updatePseudo (ds : DataSet) (task : String)
    (f : PseudoAction → PseudoAction) : DataSet :=
  { ds with pseudoActions :=
      ds.pseudoActions.map (fun p => if p.task == task then f p else p) }

/- ===== custom_action_order and migration mirroring
   (part_000 lines 1548-1743) ===== -/

/-- Embedding of the body of handle_migration_ordering (part_000 lines
1552-1682) as the list of mirror orderings it creates, in creation order.
Pointer equality of the two resources is modelled by id equality (resource
ids are unique in a working set). Endpoints backed by pseudo-actions have a
NULL resource, so the early return covers them. -/
def migrationMirrors (o : OrderSpec) : List OrderSpec :=
  match o.lhRsc, o.rhRsc with
  | some lh, some rh =>
    if lh.id = rh.id then []
    else if isParent lh rh || isParent rh lh then []
    else if !lh.allowMigrate && !rh.allowMigrate then []
    else
      match o.lhTask, o.rhTask with
      | some lt, some rt =>
        if strCaseEq lt RSC_START && strCaseEq rt RSC_START then
          (if lh.allowMigrate && rh.allowMigrate then
            [{ lhRsc := some lh, lhTask := some RSC_MIGRATED,
               rhRsc := some rh, rhTask := some RSC_MIGRATE,
               flags := { optionalF := true } }]
           else [])
          ++
          (if rh.allowMigrate then
            [{ lhRsc := some lh, lhTask := some RSC_START,
               rhRsc := some rh, rhTask := some RSC_MIGRATE,
               flags := { optionalF := true,
                          applyFirstNonMigratable := lh.allowMigrate } }]
           else [])
        else if rh.allowMigrate && strCaseEq lt RSC_STOP && strCaseEq rt RSC_STOP then
          [{ lhRsc := some lh, lhTask := some RSC_STOP,
             rhRsc := some rh, rhTask := some RSC_MIGRATE,
             flags := { optionalF := true,
                        applyFirstNonMigratable := lh.allowMigrate } }]
          ++
          (if rh.partialMigrationTargetSet then
            [{ lhRsc := some lh, lhTask := some RSC_STOP,
               rhRsc := some rh, rhTask := some RSC_MIGRATED,
               flags := { optionalF := true,
                          applyFirstNonMigratable := lh.allowMigrate } }]
           else [])
        else if strCaseEq lt RSC_PROMOTE && strCaseEq rt RSC_START then
          (if rh.allowMigrate then
            [{ lhRsc := some lh, lhTask := some RSC_PROMOTE,
               rhRsc := some rh, rhTask := some RSC_MIGRATE,
               flags := { optionalF := true } }]
           else [])
        else if strCaseEq lt RSC_DEMOTE && strCaseEq rt RSC_STOP then
          (if rh.allowMigrate then
            [{ lhRsc := some lh, lhTask := some RSC_DEMOTE,
               rhRsc := some rh, rhTask := some RSC_MIGRATE,
               flags := { optionalF := true } }]
            ++
            (if rh.partialMigrationTargetSet then
              [{ lhRsc := some lh, lhTask := some RSC_DEMOTE,
                 rhRsc := some rh, rhTask := some RSC_MIGRATED,
                 flags := { optionalF := true } }]
             else [])
           else [])
        else []
      | _, _ => []
  | _, _ => []

/-- Worker for custom_action_order (part_000 lines 1685-1743) with explicit
fuel for the recursion through handle_migration_ordering. Appends the new
ordering (GLib prepend) and then processes its migration mirrors the same
way. Fuel 3 is enough because mirror orderings never have mirrors of their
own (migrationMirrors_mirror below). -/
def addOrdering : Nat → OrderSpec → DataSet → DataSet
  | 0, _, ds => ds
  | Nat.succ n, spec, ds =>
    if (spec.lhPseudo = none && spec.lhRsc = none)
        || (spec.rhPseudo = none && spec.rhRsc = none) then ds
    else
      let con : OrderCon := { toOrderSpec := spec, idNum := ds.orderId }
      let ds := { ds with orderId := ds.orderId + 1,
                          orderings := con :: ds.orderings }
      (migrationMirrors spec).foldl (fun ds m => addOrdering n m ds) ds

/-- Embedding of custom_action_order. -/
def custom_action_order (spec : OrderSpec) (ds : DataSet) : DataSet :=
  addOrdering 3 spec ds

/-- Embedding of new_rsc_order (part_000 lines 1516-1533): both endpoints are
resource/task pairs; a NULL task fails the CRM_CHECK and creates nothing
(order_rsc_sets can pass NULL after a failed task inversion). -/
def new_rsc_order (lh : RscData) (lhTask : Option String) (rh : RscData)
    (rhTask : Option String) (flags : OrderFlags) (ds : DataSet) : DataSet :=
  match lhTask, rhTask with
  | some lt, some rt =>
    custom_action_order
      { lhRsc := some lh, lhTask := some lt,
        rhRsc := some rh, rhTask := some rt, flags := flags } ds
  | _, _ => ds

/-- Every migration mirror ordering has migrate_to or migrate_from as its
then-task. -/
theorem migrationMirrors_shape (o m : OrderSpec)
    (hm : m ∈ migrationMirrors o) :
    (m.rhTask = some RSC_MIGRATE ∨ m.rhTask = some RSC_MIGRATED) ∧
    m.lhPseudo = none ∧ m.rhPseudo = none ∧ m.lhRsc.isSome ∧ m.rhRsc.isSome ∧
    m.flags.antiColocation = false ∧ m.flags.oneOrMore = false := by
  rcases o with ⟨lhR, lhT, lhP, rhR, rhT, rhP, fl⟩
  rcases lhR with _ | lh <;> rcases rhR with _ | rh <;>
    rcases lhT with _ | lt <;> rcases rhT with _ | rt <;>
    simp only [migrationMirrors] at hm <;>
    first
      | exact absurd hm (List.not_mem_nil m)
      | (split_ifs at hm <;>
          simp only [List.mem_append, List.mem_singleton, List.not_mem_nil,
            or_false, false_or] at hm <;>
          first
            | exact hm.elim
            | (rcases hm with hm | hm <;> subst hm <;> simp)
            | (subst hm; simp))

/-- A spec whose then-task is migrate_to or migrate_from has no migration
mirrors. -/
theorem migrationMirrors_rt_migrate (s : OrderSpec)
    (h : s.rhTask = some RSC_MIGRATE ∨ s.rhTask = some RSC_MIGRATED) :
    migrationMirrors s = [] := by
  have e1 : strCaseEq RSC_MIGRATE RSC_START = false := by decide
  have e2 : strCaseEq RSC_MIGRATE RSC_STOP = false := by decide
  have e3 : strCaseEq RSC_MIGRATED RSC_START = false := by decide
  have e4 : strCaseEq RSC_MIGRATED RSC_STOP = false := by decide
  rcases s with ⟨lhR, lhT, lhP, rhR, rhT, rhP, fl⟩
  simp only at h
  rcases lhR with _ | lh <;> rcases rhR with _ | rh <;>
    rcases lhT with _ | lt <;>
    rcases h with h | h <;> (try subst h) <;>
    simp [migrationMirrors, e1, e2, e3, e4]

/-- Mirror orderings have no mirrors of their own, so fuel 3 in
custom_action_order reproduces the unbounded C recursion. -/
theorem migrationMirrors_mirror (o m : OrderSpec)
    (hm : m ∈ migrationMirrors o) : migrationMirrors m = [] :=
  migrationMirrors_rt_migrate m (migrationMirrors_shape o m hm).1

/-- The endpoint check of custom_action_order as a Bool, true when the
ordering is rejected as invalid. -/
def OrderSpec.rejected (spec : OrderSpec) : Bool :=
  (spec.lhPseudo.isNone && spec.lhRsc.isNone)
    || (spec.rhPseudo.isNone && spec.rhRsc.isNone)

theorem addOrdering_eq_check (n : Nat) (spec : OrderSpec) (ds : DataSet) :
    addOrdering (n + 1) spec ds =
      if spec.rejected then ds
      else
        (migrationMirrors spec).foldl (fun ds m => addOrdering n m ds)
          { ds with orderId := ds.orderId + 1,
                    orderings :=
                      { toOrderSpec := spec, idNum := ds.orderId }
                        :: ds.orderings } := by
  show (if _ then _ else _) = _
  rcases spec with ⟨lhR, lhT, lhP, rhR, rhT, rhP, fl⟩
  rcases lhR with _ | lh <;> rcases lhP with _ | lp <;>
    rcases rhR with _ | rh <;> rcases rhP with _ | rp <;>
    simp [OrderSpec.rejected]

/-- The fields of the working set that the ordering machinery never
changes, bundled for preservation lemmas. -/
def DataSet.side (ds : DataSet) :
    List Resource × List PseudoAction × List Colocation ×
      List (String × List Colocation) × List (String × List Colocation) ×
      List (String × Option (List String)) ×
      List (String × Option (List String)) × List Diag :=
  (ds.resources, ds.pseudoActions, ds.colocations, ds.rscCons,
   ds.rscConsLhs, ds.templateRscSets, ds.tags, ds.diags)

/-- Fields of the working set other than the order counter and the ordering
list are untouched by addOrdering. -/
theorem addOrdering_side (n : Nat) :
    ∀ (spec : OrderSpec) (ds : DataSet),
      (addOrdering n spec ds).side = ds.side := by
  induction n with
  | zero => intro spec ds; simp [addOrdering]
  | succ n ih =>
    have hfold : ∀ (ms : List OrderSpec) (ds : DataSet),
        (ms.foldl (fun ds m => addOrdering n m ds) ds).side = ds.side := by
      intro ms
      induction ms with
      | nil => intro ds; simp
      | cons m ms ihm =>
        intro ds
        rw [List.foldl_cons]
        exact (ihm (addOrdering n m ds)).trans (ih m ds)
    intro spec ds
    rw [addOrdering_eq_check]
    split
    · rfl
    · exact hfold (migrationMirrors spec) _

/-- A fold of addOrdering over mirror-free valid specs prepends them in
order. -/
theorem foldl_addOrdering_mirrorFree (n : Nat) (ms : List OrderSpec)
    (h : ∀ m ∈ ms, migrationMirrors m = [] ∧ m.rejected = false) :
    ∀ ds : DataSet,
      ((ms.foldl (fun ds m => addOrdering (n + 1) m ds) ds).orderings.map
        OrderCon.toOrderSpec) =
      ms.reverse ++ ds.orderings.map OrderCon.toOrderSpec := by
  induction ms with
  | nil => intro ds; simp
  | cons m ms ih =>
    intro ds
    have hm := h m (List.mem_cons_self m ms)
    rw [List.foldl_cons,
        ih (fun x hx => h x (List.mem_cons_of_mem m hx)),
        addOrdering_eq_check, hm.2]
    simp [hm.1]

/-- What custom_action_order does to the ordering list: nothing for a
rejected spec, otherwise the new ordering followed by its migration mirrors,
each of which is prepended in creation order. -/
theorem custom_action_order_orderings (spec : OrderSpec) (ds : DataSet)
    (hv : spec.rejected = false) :
    (custom_action_order spec ds).orderings.map OrderCon.toOrderSpec =
      (migrationMirrors spec).reverse ++
        spec :: ds.orderings.map OrderCon.toOrderSpec := by
  unfold custom_action_order
  rw [addOrdering_eq_check, hv]
  simp only [Bool.false_eq_true, if_false]
  rw [foldl_addOrdering_mirrorFree 1 (migrationMirrors spec)
      (fun m hm => ⟨migrationMirrors_mirror spec m hm, by
        have hs := migrationMirrors_shape spec m hm
        rcases hs with ⟨_, h1, h2, h3, h4, _⟩
        simp [OrderSpec.rejected, h1, h2]
        exact ⟨h3, h4⟩⟩)]
  simp

/-- custom_action_order leaves all fields other than the counter and the
ordering list alone. -/
theorem custom_action_order_side (spec : OrderSpec) (ds : DataSet) :
    (custom_action_order spec ds).side = ds.side :=
  addOrdering_side 3 spec ds

theorem side_resources {a b : DataSet} (h : a.side = b.side) :
    a.resources = b.resources := congrArg (fun p => p.1) h

theorem side_pseudoActions {a b : DataSet} (h : a.side = b.side) :
    a.pseudoActions = b.pseudoActions := congrArg (fun p => p.2.1) h

theorem side_colocations {a b : DataSet} (h : a.side = b.side) :
    a.colocations = b.colocations := congrArg (fun p => p.2.2.1) h

theorem side_rscCons {a b : DataSet} (h : a.side = b.side) :
    a.rscCons = b.rscCons := congrArg (fun p => p.2.2.2.1) h

theorem side_rscConsLhs {a b : DataSet} (h : a.side = b.side) :
    a.rscConsLhs = b.rscConsLhs := congrArg (fun p => p.2.2.2.2.1) h

theorem side_diags {a b : DataSet} (h : a.side = b.side) :
    a.diags = b.diags := congrArg (fun p => p.2.2.2.2.2.2.2) h

theorem addDiags_orderings (ds : DataSet) (d : List Diag) :
    (ds.addDiags d).orderings = ds.orderings := rfl

theorem addDiags_nil (ds : DataSet) : ds.addDiags [] = ds := by
  simp [DataSet.addDiags]

theorem addDiags_mem (ds : DataSet) (d : List Diag) {x : Diag}
    (hx : x ∈ ds.diags) : x ∈ (ds.addDiags d).diags :=
  List.mem_append_left d hx

/-- Existing orderings survive addOrdering. -/
theorem addOrdering_mem (n : Nat) :
    ∀ (spec : OrderSpec) (ds : DataSet) {o : OrderCon},
      o ∈ ds.orderings → o ∈ (addOrdering n spec ds).orderings := by
  induction n with
  | zero => intro spec ds o h; simpa [addOrdering] using h
  | succ n ih =>
    have hfold : ∀ (ms : List OrderSpec) (ds : DataSet) {o : OrderCon},
        o ∈ ds.orderings →
        o ∈ (ms.foldl (fun ds m => addOrdering n m ds) ds).orderings := by
      intro ms
      induction ms with
      | nil => intro ds o h; simpa using h
      | cons m ms ihm =>
        intro ds o h
        rw [List.foldl_cons]
        exact ihm (addOrdering n m ds) (ih m ds h)
    intro spec ds o h
    rw [addOrdering_eq_check]
    split
    · exact h
    · exact hfold (migrationMirrors spec) _ (List.mem_cons_of_mem _ h)

theorem custom_action_order_mem (spec : OrderSpec) (ds : DataSet)
    {o : OrderCon} (h : o ∈ ds.orderings) :
    o ∈ (custom_action_order spec ds).orderings :=
  addOrdering_mem 3 spec ds h

theorem new_rsc_order_mem (lh : RscData) (lt : Option String) (rh : RscData)
    (rt : Option String) (f : OrderFlags) (ds : DataSet) {o : OrderCon}
    (h : o ∈ ds.orderings) :
    o ∈ (new_rsc_order lh lt rh rt f ds).orderings := by
  unfold new_rsc_order
  rcases lt with _ | lt <;> rcases rt with _ | rt <;>
    first
      | exact h
      | exact custom_action_order_mem _ _ h

/-- The ordering list never shrinks. -/
theorem addOrdering_len_ge (n : Nat) :
    ∀ (spec : OrderSpec) (ds : DataSet),
      ds.orderings.length ≤ (addOrdering n spec ds).orderings.length := by
  induction n with
  | zero => intro spec ds; simp [addOrdering]
  | succ n ih =>
    have hfold : ∀ (ms : List OrderSpec) (ds : DataSet),
        ds.orderings.length ≤
          (ms.foldl (fun ds m => addOrdering n m ds) ds).orderings.length := by
      intro ms
      induction ms with
      | nil => intro ds; simp
      | cons m ms ihm =>
        intro ds
        rw [List.foldl_cons]
        exact le_trans (ih m ds) (ihm (addOrdering n m ds))
    intro spec ds
    rw [addOrdering_eq_check]
    split
    · exact le_rfl
    · exact le_trans (by simp) (hfold (migrationMirrors spec) _)

/-- An accepted spec strictly grows the ordering list. -/
theorem custom_action_order_len_gt (spec : OrderSpec) (ds : DataSet)
    (hv : spec.rejected = false) :
    ds.orderings.length < (custom_action_order spec ds).orderings.length := by
  have h := congrArg List.length (custom_action_order_orderings spec ds hv)
  simp only [List.length_map, List.length_append, List.length_cons,
    List.length_reverse] at h
  omega

/-- The spec just passed to an accepting custom_action_order appears in the
result. -/
theorem custom_action_order_self_mem (spec : OrderSpec) (ds : DataSet)
    (hv : spec.rejected = false) :
    spec ∈ (custom_action_order spec ds).orderings.map OrderCon.toOrderSpec := by
  rw [custom_action_order_orderings spec ds hv]
  exact List.mem_append_right _ (List.mem_cons_self _ _)

/- ===== Simple ordering constraints (part_000 lines 371-637) ===== -/

/-- Attributes of a rsc_order constraint element that
unpack_simple_rsc_order reads. -/
structure OrderXml where
  id : Option String := none
  first : Option String := none
  thenId : Option String := none
  firstAction : Option String := none
  thenAction : Option String := none
  kindAttr : Option String := none
  scoreAttr : Option String := none
  symmetricalAttr : Option String := none
  requireAllAttr : Option String := none
  firstInstance : Option String := none
  thenInstance : Option String := none
deriving DecidableEq, Repr

/-- Embedding of get_ordering_resource (part_000 lines 382-419). The
find_clone_instance helper lives outside src/ and is modelled as looking up
the child named id:instance. -/
def get_ordering_resource (ds : DataSet) (rscId instId : Option String) :
    Option Resource × List Diag :=
  match rscId with
  | none => (none, [Diag.configErr "missing-resource-attribute"])
  | some rid =>
    match pe_find_constraint_resource ds.resources rid with
    | none => (none, [Diag.configErr "no-such-resource"])
    | some rsc =>
      match instId with
      | none => (some rsc, [])
      | some inst =>
        if !rsc.data.isClone then
          (none, [Diag.configErr "instance-of-non-clone"])
        else
          let cid := rid ++ ":" ++ inst
          match rsc.children.find? (fun c => c.id == cid) with
          | none => (none, [Diag.configErr "no-such-instance"])
          | some child => (some { data := child }, [])

/-- Embedding of get_minimum_first_instances (part_000 lines 430-460): the
clone-min meta-attribute of a clone, or 1 for the deprecated
require-all=false on the constraint (warned once per run), otherwise 0. -/
def get_minimum_first_instances (rsc : Resource) (x : OrderXml) :
    Int × List Diag :=
  if rsc.data.isClone then
    match rsc.data.cloneMin with
    | some s => (pcmk__scan_min_int s 0, [])
    | none =>
      match x.requireAllAttr with
      | some ra =>
        if !crm_is_true_s ra then (1, [Diag.warnOnce "require-all-deprecated"])
        else (0, [Diag.warnOnce "require-all-deprecated"])
      | none => (0, [])
  else (0, [])

/-- Embedding of clone_min_ordering (part_000 lines 475-510): register the
clone-one-or-more pseudo-action with required_runnable_before = clone_min and
the requires-any flag, order every clone child into it with one-or-more, and
order the then action after it with runnable-left. -/
def clone_min_ordering (id : String) (rsc_first : Resource)
    (action_first : String) (rsc_then : Resource) (action_then : String)
    (flags : OrderFlags) (clone_min : Int) (ds : DataSet) : DataSet :=
  let task := CRM_OP_RELAXED_CLONE ++ ":" ++ id
  let ds := get_pseudo_op task ds
  let ds := ds.updatePseudo task
    (fun p => { p with requiredRunnableBefore := clone_min, requiresAny := true })
  let ds := rsc_first.children.foldl
    (fun ds child =>
      custom_action_order
        { lhRsc := some child, lhTask := some action_first,
          rhPseudo := some task,
          flags := { oneOrMore := true, impliesThenPrinted := true } } ds)
    ds
  custom_action_order
    { lhPseudo := some task,
      rhRsc := some rsc_then.data, rhTask := some action_then,
      flags := flags.orF { runnableLeft := true } } ds

/-- Embedding of the handle_restart_type macro (part_000 lines 525-530):
for an Optional ordering whose then resource has restart-type=restart, add
the given flag. -/
def handle_restart_type (rsc : RscData) (kind : PeOrderKind)
    (flag flags : OrderFlags) : OrderFlags :=
  if kind = PeOrderKind.optionalK && rsc.restartRestart then flags.orF flag
  else flags

/-- Embedding of inverse_ordering (part_000 lines 544-563): invert both
tasks; if either has no inverse, warn and create nothing, else create the
reversed ordering with the symmetric-inverse flags. -/
def inverse_ordering (kind : PeOrderKind) (rsc_first : Resource)
    (action_first : String) (rsc_then : Resource) (action_then : String)
    (ds : DataSet) : DataSet :=
  match invert_action action_then, invert_action action_first with
  | some athen, some afirst =>
    let flags := ordering_flags_for_kind kind (some afirst)
                   OrderingSymmetry.symmetricInverse
    let flags := handle_restart_type rsc_then.data kind
                   { impliesFirst := true } flags
    new_rsc_order rsc_then.data (some athen) rsc_first.data (some afirst)
      flags ds
  | _, _ =>
    ds.addDiags [Diag.configWarn "cannot-invert"]

/-- Embedding of unpack_simple_rsc_order (part_000 lines 565-637). -/
def unpack_simple_rsc_order (x : OrderXml) (ds : DataSet) : DataSet :=
  match x.id with
  | none => ds.addDiags [Diag.configErr "constraint-without-id"]
  | some id =>
    let rf := get_ordering_resource ds x.first x.firstInstance
    let ds := ds.addDiags rf.2
    match rf.1 with
    | none => ds
    | some rsc_first =>
      let rt := get_ordering_resource ds x.thenId x.thenInstance
      let ds := ds.addDiags rt.2
      match rt.1 with
      | none => ds
      | some rsc_then =>
        let action_first := x.firstAction.getD RSC_START
        let action_then := x.thenAction.getD action_first
        let kd := get_ordering_type x.kindAttr x.scoreAttr
        let kind := kd.1
        let ds := ds.addDiags kd.2
        let sy := get_ordering_symmetry x.kindAttr x.scoreAttr
                    x.symmetricalAttr none kind
        let symmetry := sy.1
        let ds := ds.addDiags sy.2
        let cons_weight := ordering_flags_for_kind kind (some action_first)
                             symmetry
        let cons_weight := handle_restart_type rsc_then.data kind
                             { impliesThen := true } cons_weight
        let mrb := get_minimum_first_instances rsc_first x
        let min_required_before := mrb.1
        let ds := ds.addDiags mrb.2
        let ds :=
          if min_required_before > 0 then
            clone_min_ordering id rsc_first action_first rsc_then action_then
              cons_weight min_required_before ds
          else
            new_rsc_order rsc_first.data (some action_first) rsc_then.data
              (some action_then) cons_weight ds
        if symmetry = OrderingSymmetry.symmetric then
          inverse_ordering kind rsc_first action_first rsc_then action_then ds
        else ds

/-- Monotonicity facts about inverse_ordering: it preserves orderings and
diagnostics by membership and does not touch the pseudo-action registry or
the ordering list shrinkwise. -/
theorem inverse_ordering_mono (kind : PeOrderKind) (rf : Resource)
    (af : String) (rt : Resource) (at2 : String) (ds : DataSet) :
    (∀ o ∈ ds.orderings,
      o ∈ (inverse_ordering kind rf af rt at2 ds).orderings) ∧
    (inverse_ordering kind rf af rt at2 ds).pseudoActions =
      ds.pseudoActions ∧
    (∀ d ∈ ds.diags, d ∈ (inverse_ordering kind rf af rt at2 ds).diags) ∧
    ds.orderings.length ≤
      (inverse_ordering kind rf af rt at2 ds).orderings.length := by
  unfold inverse_ordering
  rcases invert_action at2 with _ | iat <;> rcases invert_action af with _ | iaf <;>
    dsimp only [new_rsc_order] <;>
    first
      | exact ⟨fun o h => h, rfl, fun d h => addDiags_mem ds _ h, le_rfl⟩
      | exact ⟨fun o h => custom_action_order_mem _ _ h,
               side_pseudoActions (custom_action_order_side _ _),
               fun d h => by
                 rw [side_diags (custom_action_order_side _ _)]; exact h,
               addOrdering_len_ge 3 _ _⟩

/- ===== Colocations (part_000 lines 1318-1513, 2210-2226) ===== -/

/-- Embedding of sort_cons_priority_lh (part_000 lines 1318-1364): order by
descending dependent priority, then clones first, then promotable clones
first, then by id. -/
def sort_cons_priority_lh (a b : Colocation) : Int :=
  if a.rscLh.priority > b.rscLh.priority then -1
  else if a.rscLh.priority < b.rscLh.priority then 1
  else if a.rscLh.variant > b.rscLh.variant then -1
  else if a.rscLh.variant < b.rscLh.variant then 1
  else if a.rscLh.variant = 2 && a.rscLh.promotable && !b.rscLh.promotable
    then -1
  else if a.rscLh.variant = 2 && !a.rscLh.promotable && b.rscLh.promotable
    then 1
  else strcmpZ a.rscLh.id b.rscLh.id

/-- Embedding of sort_cons_priority_rh (part_000 lines 1366-1412), the same
ordering keyed on the primary resource. -/
def sort_cons_priority_rh (a b : Colocation) : Int :=
  if a.rscRh.priority > b.rscRh.priority then -1
  else if a.rscRh.priority < b.rscRh.priority then 1
  else if a.rscRh.variant > b.rscRh.variant then -1
  else if a.rscRh.variant < b.rscRh.variant then 1
  else if a.rscRh.variant = 2 && a.rscRh.promotable && !b.rscRh.promotable
    then -1
  else if a.rscRh.variant = 2 && !a.rscRh.promotable && b.rscRh.promotable
    then 1
  else strcmpZ a.rscRh.id b.rscRh.id

/-- Updates the entry of one resource id in a per-resource association list,
creating it when absent (a fresh resource has an empty GLib list). -/
def updateAssoc (key : String) (f : List Colocation → List Colocation) :
    List (String × List Colocation) → List (String × List Colocation)
  | [] => [(key, f [])]
  | (k, v) :: rest =>
    if k = key then (k, f v) :: rest else (k, v) :: updateAssoc key f rest

/-- The first_tasks array of anti_colocation_order (part_000 lines
1424-1434): actions that make a resource lose the given role. -/
def antiLoseTasks (r : RscRole) : List String :=
  if r = RscRole.promoted then [RSC_DEMOTE]
  else RSC_STOP ::
    (if r = RscRole.unpromoted then [RSC_PROMOTE] else [])

/-- The then_tasks array of anti_colocation_order (part_000 lines
1436-1446): actions that make a resource gain the given role. -/
def antiGainTasks (r : RscRole) : List String :=
  if r = RscRole.promoted then [RSC_PROMOTE]
  else RSC_START ::
    (if r = RscRole.unpromoted then [RSC_DEMOTE] else [])

/-- Embedding of anti_colocation_order (part_000 lines 1414-1454): for each
task that makes the first resource lose its role and each task that makes
the then resource gain its role, create an ordering carrying only the
anti-colocation flag. -/
def anti_colocation_order (first_rsc : RscData) (first_role : RscRole)
    (then_rsc : RscData) (then_role : RscRole) (ds : DataSet) : DataSet :=
  (antiLoseTasks first_role).foldl
    (fun ds ft =>
      (antiGainTasks then_role).foldl
        (fun ds tt =>
          new_rsc_order first_rsc (some ft) then_rsc (some tt)
            { antiColocation := true } ds)
        ds)
    ds

/-- Role name constant RSC_ROLE_STARTED_S used by pcmk__new_colocation. -/
def RSC_STARTED_S : String := "Started"

/-- Role given to a colocation side: a NULL or Started role string becomes
Unknown before text2role, as in pcmk__new_colocation lines 1479-1492. -/
def colocationRole (state : Option String) : RscRole :=
  match state with
  | none => RscRole.unknownR
  | some s => if strCaseEq s RSC_STARTED_S then RscRole.unknownR
              else text2role s

/-- Embedding of pcmk__new_colocation (part_000 lines 1456-1513): skip score
0, reject missing resources, record the constraint on both resources (sorted
insertion) and on the working set, and for score at or below minus INFINITY
synthesise anti-colocation orderings in both directions. -/
def pcmk__new_colocation (id : String) (node_attr : Option String)
    (score : Int) (rsc_lh rsc_rh : Option RscData)
    (state_lh state_rh : Option String) (influence : Bool) (ds : DataSet) :
    DataSet :=
  if score = 0 then ds.addDiags [Diag.traceMsg "score-zero"]
  else
    match rsc_lh, rsc_rh with
    | some lh, some rh =>
      let con : Colocation :=
        { id := id, rscLh := lh, rscRh := rh, score := score,
          roleLh := colocationRole state_lh, roleRh := colocationRole state_rh,
          nodeAttribute := node_attr, influence := influence }
      let ds := { ds with
        rscCons := updateAssoc lh.id
          (gListInsertSorted sort_cons_priority_rh con) ds.rscCons,
        rscConsLhs := updateAssoc rh.id
          (gListInsertSorted sort_cons_priority_lh con) ds.rscConsLhs,
        colocations := ds.colocations ++ [con] }
      if score ≤ -1000000 then
        let ds := anti_colocation_order lh con.roleLh rh con.roleRh ds
        anti_colocation_order rh con.roleRh lh con.roleLh ds
      else ds
    | _, _ => ds.addDiags [Diag.configErr "colocation-resource-missing"]

/-- Embedding of unpack_influence (part_000 lines 2210-2226): a present and
parsable influence attribute wins; otherwise (absent, or unparsable with a
configuration error) the dependent critical flag is used. -/
def unpack_influence (rsc : RscData) (influence_s : Option String) :
    Bool × List Diag :=
  match influence_s with
  | some s =>
    match crm_str_to_boolean s with
    | none => (rsc.critical, [Diag.configErr "invalid-influence"])
    | some b => (b, [])
  | none => (rsc.critical, [])

/- ===== Cross-set orderings (part_000 lines 1856-2017) ===== -/

/-- Attributes of one resource_set element, with the resource_ref ids in
document order. -/
structure SetXml where
  id : Option String := none
  action : Option String := none
  sequential : Option String := none
  requireAll : Option String := none
  refs : List String := []
deriving DecidableEq, Repr

/-- Loop of order_rsc_sets lines 1910-1921: order every member of set1 into
the requires-any pseudo-action with one-or-more; a member that is not a
known resource fails the whole unpacking (EXPAND_CONSTRAINT_IDREF). -/
def orderSetRefsIntoPseudo (task : String) (a1 : Option String) :
    List String → DataSet → Bool × DataSet
  | [], ds => (true, ds)
  | r :: rest, ds =>
    match pe_find_constraint_resource ds.resources r with
    | none => (false, ds.addDiags [Diag.configErr "no-resource-for-set-ref"])
    | some rsc =>
      orderSetRefsIntoPseudo task a1 rest
        (custom_action_order
          { lhRsc := some rsc.data, lhTask := a1, rhPseudo := some task,
            flags := { oneOrMore := true, impliesThenPrinted := true } } ds)

/-- Loop of order_rsc_sets lines 1922-1932: order the pseudo-action before
every member of set2 with runnable-left added to the kind flags. -/
def orderPseudoIntoSetRefs (task : String) (a2 : Option String)
    (flags : OrderFlags) : List String → DataSet → Bool × DataSet
  | [], ds => (true, ds)
  | r :: rest, ds =>
    match pe_find_constraint_resource ds.resources r with
    | none => (false, ds.addDiags [Diag.configErr "no-resource-for-set-ref"])
    | some rsc =>
      orderPseudoIntoSetRefs task a2 flags rest
        (custom_action_order
          { lhPseudo := some task, rhRsc := some rsc.data, rhTask := a2,
            flags := flags.orF { runnableLeft := true } } ds)

/-- Loop of order_rsc_sets lines 1982-1987: order one resolved first
resource before every member of set2. -/
def orderRsc1IntoRefs (rsc_1 : RscData) (a1 a2 : Option String)
    (flags : OrderFlags) : List String → DataSet → Bool × DataSet
  | [], ds => (true, ds)
  | r :: rest, ds =>
    match pe_find_constraint_resource ds.resources r with
    | none => (false, ds.addDiags [Diag.configErr "no-resource-for-set-ref"])
    | some rsc =>
      orderRsc1IntoRefs rsc_1 a1 a2 flags rest
        (new_rsc_order rsc_1 a1 rsc.data a2 flags ds)

/-- Loop of order_rsc_sets lines 1989-1998: order every member of set1
before one resolved then resource. -/
def orderRefsIntoRsc2 (rsc_2 : RscData) (a1 a2 : Option String)
    (flags : OrderFlags) : List String → DataSet → Bool × DataSet
  | [], ds => (true, ds)
  | r :: rest, ds =>
    match pe_find_constraint_resource ds.resources r with
    | none => (false, ds.addDiags [Diag.configErr "no-resource-for-set-ref"])
    | some rsc =>
      orderRefsIntoRsc2 rsc_2 a1 a2 flags rest
        (new_rsc_order rsc.data a1 rsc_2 a2 flags ds)

/-- Loop of order_rsc_sets lines 2000-2014: the full cross product between
the members of set1 and set2. -/
def orderRefsCross (refs2 : List String) (a1 a2 : Option String)
    (flags : OrderFlags) : List String → DataSet → Bool × DataSet
  | [], ds => (true, ds)
  | r :: rest, ds =>
    match pe_find_constraint_resource ds.resources r with
    | none => (false, ds.addDiags [Diag.configErr "no-resource-for-set-ref"])
    | some rsc =>
      match orderRsc1IntoRefs rsc.data a1 a2 flags refs2 ds with
      | (false, ds) => (false, ds)
      | (true, ds) => orderRefsCross refs2 a1 a2 flags rest ds

/-- Resolution of the representative member a sequential set contributes:
with no candidate the symmetric branch looks up a NULL id and fails with a
configuration error, while the inverse branch skips the lookup. -/
def pickResolve (ds : DataSet) (r : Option String) (errorOnNone : Bool) :
    Bool × Option RscData × List Diag :=
  match r with
  | none =>
    if errorOnNone then (false, none, [Diag.configErr "no-resource-for-set-ref"])
    else (true, none, [])
  | some rid =>
    match pe_find_constraint_resource ds.resources rid with
    | none => (false, none, [Diag.configErr "no-resource-for-set-ref"])
    | some rsc => (true, some rsc.data, [])

/-- The require-all=false branch of order_rsc_sets (part_000 lines
1903-1937): register the one-or-more pseudo-action named after set1, mark it
requires-any, order every member of set1 into it and the pseudo-action
before every member of set2. -/
def orderRscSetsRelaxed (set1 set2 : SetXml) (a1 a2 : Option String)
    (flags : OrderFlags) (ds : DataSet) : Bool × DataSet :=
  let task := CRM_OP_RELAXED_SET ++ ":" ++ set1.id.getD ""
  let ds := get_pseudo_op task ds
  let ds := ds.updatePseudo task (fun p => { p with requiresAny := true })
  match orderSetRefsIntoPseudo task a1 set1.refs ds with
  | (false, ds) => (false, ds)
  | (true, ds) => orderPseudoIntoSetRefs task a2 flags set2.refs ds

/-- The require-all branch of order_rsc_sets (part_000 lines 1939-2016):
resolve the representative member of each sequential set and create the
ordinary pairwise ordering edges. -/
def orderRscSetsSeq (set1 set2 : SetXml) (symmetry : OrderingSymmetry)
    (a1 a2 : Option String) (flags : OrderFlags) (ds : DataSet) :
    Bool × DataSet :=
  let pick1 :=
    if crm_is_true set1.sequential then
      if symmetry = OrderingSymmetry.symmetricInverse then
        pickResolve ds set1.refs.head? false
      else pickResolve ds set1.refs.getLast? true
    else (true, none, [])
  match pick1 with
  | (false, _, d) => (false, ds.addDiags d)
  | (true, rsc_1, d1) =>
    let ds := ds.addDiags d1
    let pick2 :=
      if crm_is_true set2.sequential then
        if symmetry = OrderingSymmetry.symmetricInverse then
          pickResolve ds set2.refs.getLast? true
        else pickResolve ds set2.refs.head? false
      else (true, none, [])
    match pick2 with
    | (false, _, d) => (false, ds.addDiags d)
    | (true, rsc_2, d2) =>
      let ds := ds.addDiags d2
      match rsc_1, rsc_2 with
      | some r1, some r2 =>
        (true, new_rsc_order r1 a1 r2 a2 flags ds)
      | some r1, none =>
        orderRsc1IntoRefs r1 a1 a2 flags set2.refs ds
      | none, some r2 =>
        orderRefsIntoRsc2 r2 a1 a2 flags set1.refs ds
      | none, none =>
        orderRefsCross set2.refs a1 a2 flags set1.refs ds

/-- The effective action of a set (part_000 lines 1878-1889): the declared
action attribute, defaulting to start, inverted for the symmetric inverse
relation (where the inversion can yield NULL). -/
def effAction (a : Option String) (symmetry : OrderingSymmetry) :
    Option String :=
  let a1 : Option String := some (a.getD RSC_START)
  if symmetry = OrderingSymmetry.symmetricInverse then a1.bind invert_action
  else a1

/-- The stop-or-demote test of part_000 line 1891 on the effective first
action: case-insensitive, and a NULL action matches neither. -/
def effStopDemote : Option String → Bool
  | some a => strCaseEq RSC_STOP a || strCaseEq RSC_DEMOTE a
  | none => false

/-- Embedding of order_rsc_sets (part_000 lines 1856-2017): cross-set
ordering between two adjacent resource sets, with the require-all=false
treatment routed through a one-or-more pseudo-action, suppressed when the
effective first action (after inversion for the symmetric inverse) is stop
or demote. -/
def order_rsc_sets (set1 set2 : SetXml) (kind : PeOrderKind)
    (symmetry : OrderingSymmetry) (ds : DataSet) : Bool × DataSet :=
  let action_1 := effAction set1.action symmetry
  let action_2 := effAction set2.action symmetry
  let require_all := match set1.requireAll with
                     | some s => crm_is_true_s s
                     | none => true
  let require_all := if effStopDemote action_1 then true else require_all
  let flags := ordering_flags_for_kind kind action_2 symmetry
  if !require_all then
    orderRscSetsRelaxed set1 set2 action_1 action_2 flags ds
  else
    orderRscSetsSeq set1 set2 symmetry action_1 action_2 flags ds

/- ===== Tag expansion in resource sets (part_000 lines 220-270, 653-753) ===== -/

/-- Looks up a tag table (template_rsc_sets or tags), distinguishing a
missing key from a key mapped to NULL. -/
def lookupTagTable (tbl : List (String × Option (List String)))
    (id : String) : Option (Option (List String)) :=
  (tbl.find? (fun kv => kv.1 == id)).map (fun kv => kv.2)

/-- Embedding of pe_find_constraint_tag (part_000 lines 220-248): consult the
template table first, then the tag table; keys mapped to NULL and missing
keys warn and fail. -/
def pe_find_constraint_tag (ds : DataSet) (id : String) :
    Option (List String) × List Diag :=
  match lookupTagTable ds.templateRscSets id with
  | some (some refs) => (some refs, [])
  | some none => (none, [Diag.warnMsg "no-resource-derived-from-template"])
  | none =>
    match lookupTagTable ds.tags id with
    | some (some refs) => (some refs, [])
    | some none => (none, [Diag.warnMsg "no-resource-tagged-with"])
    | none => (none, [Diag.warnMsg "no-template-or-tag"])

/-- Embedding of valid_resource_or_tag (part_000 lines 250-270) with both
output pointers supplied: resources take precedence over tags. -/
def valid_resource_or_tag (ds : DataSet) (id : String) :
    Option Resource × Option (List String) × List Diag :=
  match pe_find_constraint_resource ds.resources id with
  | some r => (some r, none, [])
  | none =>
    let t := pe_find_constraint_tag ds id
    (none, t.1, t.2)

/-- Result of expand_tags_in_sets: a configuration error rejecting the sets
(the C function logs and returns NULL), no tag references (the C function
returns NULL and the caller keeps the original XML), or the rewritten sets. -/
inductive ExpandResult where
  | err
  | unchanged
  | expanded (sets : List (List String))
deriving DecidableEq, Repr

/-- Inner loop of expand_tags_in_sets (part_000 lines 667-728) over the
resource_ref children of one set: a resource is kept, a tag reference is
replaced in place by its members (which the C sibling iteration then visits
in turn, hence the recursion into members ++ rest), anything else is a
configuration error. The fuel bounds the work; the C loop would not
terminate on cyclic tag tables. -/
def expandSetRefs (ds : DataSet) :
    Nat → List String → Option (List String × Bool) × List Diag
  | _, [] => (some ([], false), [])
  | 0, _ :: _ => (none, [])
  | Nat.succ n, r :: rest =>
    match valid_resource_or_tag ds r with
    | (some _, _, d) =>
      (match expandSetRefs ds n rest with
       | (none, d2) => (none, d ++ d2)
       | (some (l, b), d2) => (some (r :: l, b), d ++ d2))
    | (none, some members, d) =>
      (match expandSetRefs ds n (members ++ rest) with
       | (none, d2) => (none, d ++ d2)
       | (some (l, _), d2) => (some (l, true), d ++ d2))
    | (none, none, d) =>
      (none, d ++ [Diag.configErr "not-a-valid-resource-or-tag"])

/-- Outer loop of expand_tags_in_sets over the resource_set children. -/
def expandSetsGo (fuel : Nat) (ds : DataSet) :
    List (List String) → Option (List (List String) × Bool) × List Diag
  | [] => (some ([], false), [])
  | s :: rest =>
    match expandSetRefs ds fuel s with
    | (none, d) => (none, d)
    | (some (s2, b), d) =>
      match expandSetsGo fuel ds rest with
      | (none, d2) => (none, d ++ d2)
      | (some (l, b2), d2) => (some (s2 :: l, b || b2), d ++ d2)

/-- Embedding of expand_tags_in_sets (part_000 lines 653-753). -/
def expand_tags_in_sets (fuel : Nat) (ds : DataSet)
    (sets : List (List String)) : ExpandResult × List Diag :=
  match expandSetsGo fuel ds sets with
  | (none, d) => (ExpandResult.err, d)
  | (some (l, anyRefs), d) =>
    if anyRefs then (ExpandResult.expanded l, d)
    else (ExpandResult.unchanged, d)

/- ===== Notification payload lists (src/lib/pengine/pe_notif.c) ===== -/

/-- The node fields the notification code reads: the node id (sort key) and
the node name, which can be NULL. -/
structure NodeInfo where
  id : String
  uname : Option String := none
deriving DecidableEq, Repr

/-- Embedding of notify_entry_t: a resource (by id) and a node, either of
which can be NULL. Entries themselves are values here, so the NULL-entry
guards of the C comparison (which its own comment calls impossible) have no
counterpart. -/
structure NotifyEntry where
  rsc : Option String := none
  node : Option NodeInfo := none
deriving DecidableEq, Repr

/-- The node-comparison tail of compare_notify_entries (pe_notif.c lines
71-83): NULL nodes sort after non-NULL ones, then compare node ids. -/
def nodeCmp : Option NodeInfo → Option NodeInfo → Int
  | none, none => 0
  | none, some _ => 1
  | some _, none => -1
  | some na, some nb => strcmpZ na.id nb.id

/-- Embedding of compare_notify_entries (pe_notif.c lines 36-84): compare by
resource id, then by node id, NULL sides sorting after non-NULL ones. -/
def compare_notify_entries (a b : NotifyEntry) : Int :=
  match a.rsc, b.rsc with
  | none, none => 0
  | none, some _ => 1
  | some _, none => -1
  | some ra, some rb =>
    let t := strcmpZ ra rb
    if t ≠ 0 then t else nodeCmp a.node b.node

/-- Sort relation induced by compare_notify_entries. -/
def notifyLe (a b : NotifyEntry) : Prop := compare_notify_entries a b ≤ 0

instance : DecidableRel notifyLe :=
  fun a b => inferInstanceAs (Decidable (compare_notify_entries a b ≤ 0))

/-- Space-joined word list as pcmk__add_word builds it, with the empty list
rendered as a single space (the NULL-GString default of
notify_entries_to_strings and get_node_names). -/
def joinWords : List String → String
  | [] => " "
  | w :: ws => ws.foldl (fun acc x => acc ++ " " ++ x) w

/-- Emission loop of notify_entries_to_strings (pe_notif.c lines 194-223)
over the sorted entries: skip entries without a resource, skip entries
without a node when node names are wanted, skip an entry whose resource id
equals the last emitted one, and otherwise emit the resource id and the node
name (the node name word is dropped when the uname is NULL). -/
def notifyEmit (wantNode : Bool) :
    List NotifyEntry → Option String → List (String × Option String)
  | [], _ => []
  | e :: rest, last =>
    match e.rsc with
    | none => notifyEmit wantNode rest last
    | some rid =>
      if wantNode && e.node.isNone then notifyEmit wantNode rest last
      else if some rid = last then notifyEmit wantNode rest last
      else (rid, e.node.bind (fun n => n.uname)) ::
        notifyEmit wantNode rest (some rid)

/-- Embedding of notify_entries_to_strings (pe_notif.c lines 177-234).
The stable merge sort g_list_sort is modelled by the (extensionally equal)
stable insertion sort on the same comparator. Returns the sorted list and
the two rendered strings (when requested). -/
def notify_entries_to_strings (l : List NotifyEntry)
    (wantRsc wantNode : Bool) :
    List NotifyEntry × Option String × Option String :=
  let sorted := List.insertionSort notifyLe l
  let ems := notifyEmit wantNode sorted none
  let rscStr := if wantRsc then some (joinWords (ems.map (fun p => p.1)))
                else none
  let nodeStr := if wantNode then
                   some (joinWords (ems.filterMap (fun p => p.2)))
                 else none
  (sorted, rscStr, nodeStr)

/-- Embedding of the all_node_names part of get_node_names (pe_notif.c lines
119-161): join the node names, skipping NULL unames, the empty result
rendered as a single space. -/
def get_node_names_all (l : List NodeInfo) : String :=
  joinWords (l.filterMap (fun n => n.uname))

/-- Modelled from the spec: pe__cmp_node_name (lib/pengine, not under src/)
gives the deterministic by-name node order used for display sorting. -/
def nodeNameLe (a b : NodeInfo) : Prop :=
  a.uname.getD "" ≤ b.uname.getD ""

instance : DecidableRel nodeNameLe :=
  fun a b => inferInstanceAs (Decidable (a.uname.getD "" ≤ b.uname.getD ""))

/-- Embedding of the notify_available_uname computation in add_notif_keys
(pe_notif.c lines 740-749): the values of the allowed-nodes hash table, in
table iteration order, sorted by node name only when the pass does not run
inside the daemon, then rendered by get_node_names. The table iteration
order and the daemon flag are explicit arguments because both are read by
the code and neither is part of the (configuration, status, now) inputs. -/
def notify_available_uname (isDaemon : Bool)
    (allowedNodesValues : List NodeInfo) : String :=
  let nodes := if isDaemon then allowedNodesValues
               else List.insertionSort nodeNameLe allowedNodesValues
  get_node_names_all nodes

/- ===== Helper lemmas about the simple-ordering unpacker ===== -/

theorem get_pseudo_op_orderings (t : String) (ds : DataSet) :
    (get_pseudo_op t ds).orderings = ds.orderings := by
  unfold get_pseudo_op; split <;> rfl

theorem get_pseudo_op_diags (t : String) (ds : DataSet) :
    (get_pseudo_op t ds).diags = ds.diags := by
  unfold get_pseudo_op; split <;> rfl

theorem updatePseudo_orderings (ds : DataSet) (t : String)
    (f : PseudoAction → PseudoAction) :
    (ds.updatePseudo t f).orderings = ds.orderings := rfl

theorem updatePseudo_diags (ds : DataSet) (t : String)
    (f : PseudoAction → PseudoAction) :
    (ds.updatePseudo t f).diags = ds.diags := rfl

theorem foldl_custom_len_ge (step : DataSet → RscData → DataSet)
    (hstep : ∀ ds c, ds.orderings.length ≤ (step ds c).orderings.length)
    (l : List RscData) :
    ∀ ds : DataSet,
      ds.orderings.length ≤ (l.foldl step ds).orderings.length := by
  induction l with
  | nil => intro ds; simp
  | cons c l ih =>
    intro ds
    rw [List.foldl_cons]
    exact le_trans (hstep ds c) (ih (step ds c))

theorem clone_min_ordering_len_gt (id : String) (rf : Resource) (af : String)
    (rt : Resource) (at2 : String) (f : OrderFlags) (k : Int)
    (ds : DataSet) :
    ds.orderings.length <
      (clone_min_ordering id rf af rt at2 f k ds).orderings.length := by
  unfold clone_min_ordering
  refine lt_of_le_of_lt ?_ (custom_action_order_len_gt _ _ (by
    simp [OrderSpec.rejected]))
  refine le_trans ?_ (foldl_custom_len_ge _
    (fun ds c => addOrdering_len_ge 3 _ ds) _ _)
  rw [updatePseudo_orderings, get_pseudo_op_orderings]

theorem clone_min_ordering_diags (id : String) (rf : Resource) (af : String)
    (rt : Resource) (at2 : String) (f : OrderFlags) (k : Int)
    (ds : DataSet) :
    (clone_min_ordering id rf af rt at2 f k ds).diags = ds.diags := by
  unfold clone_min_ordering
  rw [side_diags (custom_action_order_side _ _)]
  have hfold : ∀ (l : List RscData) (ds : DataSet),
      (l.foldl (fun ds child =>
        custom_action_order
          { lhRsc := some child, lhTask := some af,
            rhPseudo := some (CRM_OP_RELAXED_CLONE ++ ":" ++ id),
            flags := { oneOrMore := true, impliesThenPrinted := true } } ds)
        ds).diags = ds.diags := by
    intro l
    induction l with
    | nil => intro ds; rfl
    | cons c l ih =>
      intro ds
      rw [List.foldl_cons, ih, side_diags (custom_action_order_side _ _)]
  rw [hfold, updatePseudo_diags, get_pseudo_op_diags]

theorem new_rsc_order_diags (lh : RscData) (lt : Option String)
    (rh : RscData) (rt : Option String) (f : OrderFlags) (ds : DataSet) :
    (new_rsc_order lh lt rh rt f ds).diags = ds.diags := by
  unfold new_rsc_order
  rcases lt with _ | lt <;> rcases rt with _ | rt <;>
    first
      | rfl
      | exact side_diags (custom_action_order_side _ _)

/-- Normal form of unpack_simple_rsc_order when both resources resolve
directly (no instance attributes). -/
theorem unpack_simple_rsc_order_eq (x : OrderXml) (ds : DataSet)
    (idv fid tid : String) (rf rt : Resource)
    (hid : x.id = some idv)
    (hf : x.first = some fid) (hfi : x.firstInstance = none)
    (ht : x.thenId = some tid) (hti : x.thenInstance = none)
    (hrf : pe_find_constraint_resource ds.resources fid = some rf)
    (hrt : pe_find_constraint_resource ds.resources tid = some rt) :
    unpack_simple_rsc_order x ds =
      (let action_first := x.firstAction.getD RSC_START
       let action_then := x.thenAction.getD action_first
       let kd := get_ordering_type x.kindAttr x.scoreAttr
       let sy := get_ordering_symmetry x.kindAttr x.scoreAttr
                   x.symmetricalAttr none kd.1
       let cons_weight := handle_restart_type rt.data kd.1
                            { impliesThen := true }
                            (ordering_flags_for_kind kd.1 (some action_first)
                              sy.1)
       let mrb := get_minimum_first_instances rf x
       let ds1 := ((ds.addDiags kd.2).addDiags sy.2).addDiags mrb.2
       let ds2 := if mrb.1 > 0 then
                    clone_min_ordering idv rf action_first rt action_then
                      cons_weight mrb.1 ds1
                  else
                    new_rsc_order rf.data (some action_first) rt.data
                      (some action_then) cons_weight ds1
       if sy.1 = OrderingSymmetry.symmetric then
         inverse_ordering kd.1 rf action_first rt action_then ds2
       else ds2) := by
  simp only [unpack_simple_rsc_order, hid, hf, hfi, ht, hti,
    get_ordering_resource, hrf, addDiags_nil, hrt]

/- ===== Claim theorems ===== -/

/-- An empty working set shared by the concrete evaluations below. -/
def emptyDS : DataSet := {}

/-- C7: for every colocation constraint, the recorded influence bit equals
the boolean value of the influence attribute when it is present and parses
as a boolean; otherwise (absent, or unparsable with a configuration-error
diagnostic) it equals the critical flag of the dependent resource. -/
theorem c7_influence_bit (rsc : RscData) (influence_s : Option String) :
    (∀ s b, influence_s = some s → crm_str_to_boolean s = some b →
      (unpack_influence rsc influence_s).1 = b) ∧
    (influence_s = none →
      (unpack_influence rsc influence_s).1 = rsc.critical) ∧
    (∀ s, influence_s = some s → crm_str_to_boolean s = none →
      (unpack_influence rsc influence_s).1 = rsc.critical ∧
      Diag.configErr "invalid-influence" ∈
        (unpack_influence rsc influence_s).2) := by
  refine ⟨fun s b hs hb => ?_, fun h => ?_, fun s hs hb => ?_⟩
  · subst hs; simp [unpack_influence, hb]
  · subst h; rfl
  · subst hs; simp [unpack_influence, hb]

theorem c7_influence_bit_witness :
    (unpack_influence { id := "A", critical := true } (some "xyz")).1 = true ∧
    Diag.configErr "invalid-influence" ∈
      (unpack_influence { id := "A", critical := true } (some "xyz")).2 :=
  (c7_influence_bit { id := "A", critical := true } (some "xyz")).2.2
    "xyz" rfl (by decide)

/-- Base ordering spec between two resource/task endpoints, as new_rsc_order
builds it. -/
def mkRscSpec (a : RscData) (lt : String) (b : RscData) (rt : String)
    (f : OrderFlags) : OrderSpec :=
  { lhRsc := some a, lhTask := some lt, rhRsc := some b, rhTask := some rt,
    flags := f }

/-- C4 counterexample: resource A does not allow migration, resource B does,
so only one of the two resources permits migration, yet the mirrored
start-to-migrate_to ordering does not carry apply-first-non-migratable
(the code sets that flag only when both sides allow migration). -/
theorem c4_migration_flag_counterexample :
    ((new_rsc_order { id := "A" } (some RSC_START)
        { id := "B", allowMigrate := true } (some RSC_START)
        { optionalF := true } emptyDS).orderings.map
      (fun o => (o.lhTask, o.rhTask, o.flags.applyFirstNonMigratable))) =
    [(some RSC_START, some RSC_MIGRATE, false),
     (some RSC_START, some RSC_START, false)] := by decide

/-- C4 as amended: an ordering between distinct non-nested resources is
mirrored onto migration actions as follows. A start-start ordering is
mirrored only when the then side allows migration: onto migrate_from to
migrate_to when both sides do, and onto start to migrate_to always, the
latter carrying apply-first-non-migratable exactly when both sides allow
migration. A stop-stop ordering is mirrored only when the then side allows
migration, onto stop to migrate_to (and also stop to migrate_from for a
partial migration target), carrying apply-first-non-migratable exactly when
the first side also allows migration (hence when both do). The mirrors are
the orderings that custom_action_order adds beyond the base one. -/
theorem c4_migration_mirroring (A B : RscData) (f : OrderFlags)
    (hid : A.id ≠ B.id) (hp1 : isParent A B = false)
    (hp2 : isParent B A = false) :
    (A.allowMigrate = true → B.allowMigrate = true →
      migrationMirrors (mkRscSpec A RSC_START B RSC_START f) =
        [{ lhRsc := some A, lhTask := some RSC_MIGRATED, rhRsc := some B,
           rhTask := some RSC_MIGRATE, flags := { optionalF := true } },
         { lhRsc := some A, lhTask := some RSC_START, rhRsc := some B,
           rhTask := some RSC_MIGRATE,
           flags := { optionalF := true,
                      applyFirstNonMigratable := true } }]) ∧
    (A.allowMigrate = false → B.allowMigrate = true →
      migrationMirrors (mkRscSpec A RSC_START B RSC_START f) =
        [{ lhRsc := some A, lhTask := some RSC_START, rhRsc := some B,
           rhTask := some RSC_MIGRATE, flags := { optionalF := true } }]) ∧
    (B.allowMigrate = false →
      migrationMirrors (mkRscSpec A RSC_START B RSC_START f) = []) ∧
    (B.allowMigrate = true →
      migrationMirrors (mkRscSpec A RSC_STOP B RSC_STOP f) =
        [{ lhRsc := some A, lhTask := some RSC_STOP, rhRsc := some B,
           rhTask := some RSC_MIGRATE,
           flags := { optionalF := true,
                      applyFirstNonMigratable := A.allowMigrate } }]
        ++ (if B.partialMigrationTargetSet then
            [{ lhRsc := some A, lhTask := some RSC_STOP, rhRsc := some B,
               rhTask := some RSC_MIGRATED,
               flags := { optionalF := true,
                          applyFirstNonMigratable := A.allowMigrate } }]
          else [])) ∧
    (B.allowMigrate = false →
      migrationMirrors (mkRscSpec A RSC_STOP B RSC_STOP f) = []) ∧
    (∀ (lt rt : String) (ds : DataSet),
      (new_rsc_order A (some lt) B (some rt) f ds).orderings.map
          OrderCon.toOrderSpec =
        (migrationMirrors (mkRscSpec A lt B rt f)).reverse ++
          mkRscSpec A lt B rt f ::
            ds.orderings.map OrderCon.toOrderSpec) := by
  have e1 : strCaseEq RSC_START RSC_START = true := by decide
  have e2 : strCaseEq RSC_STOP RSC_STOP = true := by decide
  have e3 : strCaseEq RSC_STOP RSC_START = false := by decide
  have e4 : strCaseEq RSC_PROMOTE RSC_STOP = false := by decide
  have e5 : strCaseEq RSC_DEMOTE RSC_STOP = false := by decide
  refine ⟨fun ha hb => ?_, fun ha hb => ?_, fun hb => ?_, fun hb => ?_,
          fun hb => ?_, fun lt rt ds => ?_⟩
  · simp [migrationMirrors, mkRscSpec, hid, hp1, hp2, ha, hb, e1]
  · simp [migrationMirrors, mkRscSpec, hid, hp1, hp2, ha, hb, e1]
  · simp [migrationMirrors, mkRscSpec, hid, hp1, hp2, hb, e1]
  · simp [migrationMirrors, mkRscSpec, hid, hp1, hp2, hb, e2, e3]
  · simp [migrationMirrors, mkRscSpec, hid, hp1, hp2, hb, e2, e3]
  · exact custom_action_order_orderings _ ds (by
      simp [OrderSpec.rejected, mkRscSpec])

theorem c4_migration_mirroring_witness :
    migrationMirrors (mkRscSpec { id := "A" } RSC_STOP
        { id := "B", allowMigrate := true } RSC_STOP { optionalF := true }) =
      [{ lhRsc := some { id := "A" }, lhTask := some RSC_STOP,
         rhRsc := some { id := "B", allowMigrate := true },
         rhTask := some RSC_MIGRATE,
         flags := { optionalF := true } }] :=
  ((c4_migration_mirroring { id := "A" } { id := "B", allowMigrate := true }
      { optionalF := true } (by decide) (by decide)
      (by decide)).2.2.2.1 rfl).trans (by decide)

/-- Working set with two primitive resources A and B, for concrete
evaluations. -/
def dsAB : DataSet :=
  { resources := [{ data := { id := "A" } }, { data := { id := "B" } }] }

/-- C5 counterexample: an ordering constraint with the invalid kind value
Sometimes is not skipped; two ordering edges (the two symmetric directions)
are still created, alongside the configuration-error diagnostic. -/
theorem c5_invalid_kind_counterexample :
    ((unpack_simple_rsc_order
        { id := some "o1", first := some "A", thenId := some "B",
          kindAttr := some "Sometimes" } dsAB).orderings.length = 2) ∧
    Diag.configErr "invalid-kind" ∈
      (unpack_simple_rsc_order
        { id := some "o1", first := some "A", thenId := some "B",
          kindAttr := some "Sometimes" } dsAB).diags := by decide

/-- C5 as amended: a kind value other than Mandatory, Optional or Serialize
(case-insensitively) draws a configuration-error diagnostic and is reset to
Mandatory; the constraint is then unpacked as a Mandatory ordering rather
than skipped, so at least one ordering edge is still created, and the
diagnostic is recorded. -/
theorem c5_invalid_kind_reset (x : OrderXml) (ds : DataSet)
    (s idv fid tid : String) (rf rt : Resource)
    (hk : x.kindAttr = some s)
    (h1 : strCaseEq s "Mandatory" = false)
    (h2 : strCaseEq s "Optional" = false)
    (h3 : strCaseEq s "Serialize" = false)
    (hid : x.id = some idv)
    (hf : x.first = some fid) (hfi : x.firstInstance = none)
    (ht : x.thenId = some tid) (hti : x.thenInstance = none)
    (hrf : pe_find_constraint_resource ds.resources fid = some rf)
    (hrt : pe_find_constraint_resource ds.resources tid = some rt) :
    get_ordering_type x.kindAttr x.scoreAttr =
      (PeOrderKind.mandatory, [Diag.configErr "invalid-kind"]) ∧
    ds.orderings.length <
      (unpack_simple_rsc_order x ds).orderings.length ∧
    Diag.configErr "invalid-kind" ∈ (unpack_simple_rsc_order x ds).diags := by
  have hgot : get_ordering_type x.kindAttr x.scoreAttr =
      (PeOrderKind.mandatory, [Diag.configErr "invalid-kind"]) := by
    rw [hk]; simp [get_ordering_type, h1, h2, h3]
  refine ⟨hgot, ?_, ?_⟩ <;>
    rw [unpack_simple_rsc_order_eq x ds idv fid tid rf rt hid hf hfi ht hti
        hrf hrt] <;>
    simp only [hgot] <;>
    set af := x.firstAction.getD RSC_START with haf <;>
    set sy := get_ordering_symmetry x.kindAttr x.scoreAttr x.symmetricalAttr
      none PeOrderKind.mandatory with hsy <;>
    set mrb := get_minimum_first_instances rf x with hmrb <;>
    set cw := handle_restart_type rt.data PeOrderKind.mandatory
      { impliesThen := true }
      (ordering_flags_for_kind PeOrderKind.mandatory (some af) sy.1)
      with hcw <;>
    set ds1 := ((ds.addDiags [Diag.configErr "invalid-kind"]).addDiags
      sy.2).addDiags mrb.2 with hds1
  · -- length strictly grows
    have hlen1 : ds.orderings.length = ds1.orderings.length := rfl
    have hbranch : ∀ ds2 : DataSet,
        ds2 = (if mrb.1 > 0 then
                clone_min_ordering idv rf af rt (x.thenAction.getD af) cw
                  mrb.1 ds1
              else new_rsc_order rf.data (some af) rt.data
                (some (x.thenAction.getD af)) cw ds1) →
        ds1.orderings.length < ds2.orderings.length := by
      intro ds2 h2
      rw [h2]
      split
      · exact clone_min_ordering_len_gt _ _ _ _ _ _ _ _
      · exact custom_action_order_len_gt _ _ (by simp [OrderSpec.rejected])
    split
    · exact lt_of_lt_of_le (hbranch _ rfl)
        (inverse_ordering_mono _ _ _ _ _ _).2.2.2
    · exact hbranch _ rfl
  · -- the diagnostic is recorded
    have hmem : Diag.configErr "invalid-kind" ∈ ds1.diags := by
      simp [hds1, DataSet.addDiags]
    have hmem2 : ∀ ds2 : DataSet,
        ds2 = (if mrb.1 > 0 then
                clone_min_ordering idv rf af rt (x.thenAction.getD af) cw
                  mrb.1 ds1
              else new_rsc_order rf.data (some af) rt.data
                (some (x.thenAction.getD af)) cw ds1) →
        Diag.configErr "invalid-kind" ∈ ds2.diags := by
      intro ds2 h2
      rw [h2]
      split
      · rw [clone_min_ordering_diags]; exact hmem
      · rw [new_rsc_order_diags]; exact hmem
    split
    · exact (inverse_ordering_mono _ _ _ _ _ _).2.2.1 _ (hmem2 _ rfl)
    · exact hmem2 _ rfl

theorem c5_invalid_kind_reset_witness :
    get_ordering_type (some "Sometimes") none =
      (PeOrderKind.mandatory, [Diag.configErr "invalid-kind"]) ∧
    dsAB.orderings.length <
      (unpack_simple_rsc_order
        { id := some "o1", first := some "A", thenId := some "B",
          kindAttr := some "Sometimes" } dsAB).orderings.length ∧
    Diag.configErr "invalid-kind" ∈
      (unpack_simple_rsc_order
        { id := some "o1", first := some "A", thenId := some "B",
          kindAttr := some "Sometimes" } dsAB).diags :=
  c5_invalid_kind_reset
    { id := some "o1", first := some "A", thenId := some "B",
      kindAttr := some "Sometimes" } dsAB "Sometimes" "o1" "A" "B"
    { data := { id := "A" } } { data := { id := "B" } } rfl
    (by decide) (by decide) (by decide) rfl rfl rfl rfl rfl
    (by decide) (by decide)

/-- Orderings between two resources that both forbid migration have no
migration mirrors. -/
theorem migrationMirrors_noMigrate (a b : RscData) (lt rt : Option String)
    (f : OrderFlags) (h1 : a.allowMigrate = false)
    (h2 : b.allowMigrate = false) :
    migrationMirrors
      { lhRsc := some a, lhTask := lt, rhRsc := some b, rhTask := rt,
        flags := f } = [] := by
  simp [migrationMirrors, h1, h2]

/-- C2 counterexample: an Optional symmetric ordering start A then start B
does produce the inverted stop-stop edge, but that edge does not carry
implies-first (only Mandatory inverses do), refuting the claim as stated
for Optional constraints. -/
theorem c2_optional_counterexample :
    ((unpack_simple_rsc_order
        { id := some "o1", first := some "A", thenId := some "B",
          kindAttr := some "Optional" } dsAB).orderings.map
      (fun o => (o.lhTask, o.rhTask, o.flags.impliesFirst))) =
    [(some RSC_STOP, some RSC_STOP, false),
     (some RSC_START, some RSC_START, false)] := by decide

/-- C2 as amended: for a simple ordering constraint whose computed symmetry
is symmetric and whose resources do not allow migration, when both actions
have defined inverses exactly two ordering entries are created: the declared
one, and a second one with both actions inverted and the resources reversed,
whose flags are the symmetric-inverse flags for the constraint kind; that
second entry carries implies-first exactly for kind Mandatory (or for kind
Optional with restart-type=restart on the then resource). If either action
has no defined inverse, only the declared entry is created and a
configuration warning is emitted. -/
theorem c2_symmetric_inverse (x : OrderXml) (ds : DataSet)
    (idv fid tid af0 at0 : String) (rf rt : Resource)
    (hid : x.id = some idv)
    (hf : x.first = some fid) (hfi : x.firstInstance = none)
    (ht : x.thenId = some tid) (hti : x.thenInstance = none)
    (hrf : pe_find_constraint_resource ds.resources fid = some rf)
    (hrt : pe_find_constraint_resource ds.resources tid = some rt)
    (haf : x.firstAction.getD RSC_START = af0)
    (hat : x.thenAction.getD (x.firstAction.getD RSC_START) = at0)
    (hsym : (get_ordering_symmetry x.kindAttr x.scoreAttr x.symmetricalAttr
              none (get_ordering_type x.kindAttr x.scoreAttr).1).1 =
            OrderingSymmetry.symmetric)
    (hmin : ¬ (get_minimum_first_instances rf x).1 > 0)
    (hm1 : rf.data.allowMigrate = false)
    (hm2 : rt.data.allowMigrate = false) :
    (∀ iaf iat, invert_action af0 = some iaf → invert_action at0 = some iat →
      (unpack_simple_rsc_order x ds).orderings.map OrderCon.toOrderSpec =
        { lhRsc := some rt.data, lhTask := some iat,
          rhRsc := some rf.data, rhTask := some iaf,
          flags := handle_restart_type rt.data
                     (get_ordering_type x.kindAttr x.scoreAttr).1
                     { impliesFirst := true }
                     (ordering_flags_for_kind
                       (get_ordering_type x.kindAttr x.scoreAttr).1
                       (some iaf) OrderingSymmetry.symmetricInverse) } ::
        { lhRsc := some rf.data, lhTask := some af0,
          rhRsc := some rt.data, rhTask := some at0,
          flags := handle_restart_type rt.data
                     (get_ordering_type x.kindAttr x.scoreAttr).1
                     { impliesThen := true }
                     (ordering_flags_for_kind
                       (get_ordering_type x.kindAttr x.scoreAttr).1
                       (some af0) OrderingSymmetry.symmetric) } ::
        ds.orderings.map OrderCon.toOrderSpec) ∧
    (∀ iaf, (handle_restart_type rt.data PeOrderKind.mandatory
              { impliesFirst := true }
              (ordering_flags_for_kind PeOrderKind.mandatory (some iaf)
                OrderingSymmetry.symmetricInverse)).impliesFirst = true) ∧
    ((invert_action af0 = none ∨ invert_action at0 = none) →
      (unpack_simple_rsc_order x ds).orderings.map OrderCon.toOrderSpec =
        { lhRsc := some rf.data, lhTask := some af0,
          rhRsc := some rt.data, rhTask := some at0,
          flags := handle_restart_type rt.data
                     (get_ordering_type x.kindAttr x.scoreAttr).1
                     { impliesThen := true }
                     (ordering_flags_for_kind
                       (get_ordering_type x.kindAttr x.scoreAttr).1
                       (some af0) OrderingSymmetry.symmetric) } ::
        ds.orderings.map OrderCon.toOrderSpec ∧
      Diag.configWarn "cannot-invert" ∈
        (unpack_simple_rsc_order x ds).diags) := by
  have hat2 : x.thenAction.getD af0 = at0 := haf ▸ hat
  have heq := unpack_simple_rsc_order_eq x ds idv fid tid rf rt hid hf hfi
    ht hti hrf hrt
  simp only [haf, hat2, hsym, eq_self_iff_true, if_true] at heq
  rw [if_neg hmin] at heq
  have hds2 : ∀ ds1 : DataSet,
      (new_rsc_order rf.data (some af0) rt.data (some at0)
        (handle_restart_type rt.data
          (get_ordering_type x.kindAttr x.scoreAttr).1
          { impliesThen := true }
          (ordering_flags_for_kind (get_ordering_type x.kindAttr
            x.scoreAttr).1 (some af0) OrderingSymmetry.symmetric))
        ds1).orderings.map OrderCon.toOrderSpec =
      { lhRsc := some rf.data, lhTask := some af0,
        rhRsc := some rt.data, rhTask := some at0,
        flags := handle_restart_type rt.data
                   (get_ordering_type x.kindAttr x.scoreAttr).1
                   { impliesThen := true }
                   (ordering_flags_for_kind
                     (get_ordering_type x.kindAttr x.scoreAttr).1
                     (some af0) OrderingSymmetry.symmetric) } ::
        ds1.orderings.map OrderCon.toOrderSpec := by
    intro ds1
    unfold new_rsc_order
    rw [custom_action_order_orderings _ _ (by simp [OrderSpec.rejected]),
        migrationMirrors_noMigrate _ _ _ _ _ hm1 hm2]
    rfl
  refine ⟨fun iaf iat hiaf hiat => ?_, fun iaf => ?_, fun hinv => ?_⟩
  · rw [heq]
    have hinv2 : ∀ ds1 : DataSet,
        (new_rsc_order rt.data (some iat) rf.data (some iaf)
          (handle_restart_type rt.data
            (get_ordering_type x.kindAttr x.scoreAttr).1
            { impliesFirst := true }
            (ordering_flags_for_kind
              (get_ordering_type x.kindAttr x.scoreAttr).1 (some iaf)
              OrderingSymmetry.symmetricInverse))
          ds1).orderings.map OrderCon.toOrderSpec =
        { lhRsc := some rt.data, lhTask := some iat,
          rhRsc := some rf.data, rhTask := some iaf,
          flags := handle_restart_type rt.data
                     (get_ordering_type x.kindAttr x.scoreAttr).1
                     { impliesFirst := true }
                     (ordering_flags_for_kind
                       (get_ordering_type x.kindAttr x.scoreAttr).1
                       (some iaf) OrderingSymmetry.symmetricInverse) } ::
          ds1.orderings.map OrderCon.toOrderSpec := by
      intro ds1
      unfold new_rsc_order
      rw [custom_action_order_orderings _ _ (by simp [OrderSpec.rejected]),
          migrationMirrors_noMigrate _ _ _ _ _ hm2 hm1]
      rfl
    unfold inverse_ordering
    rw [hiat, hiaf]
    dsimp only
    rw [hinv2, hds2]
    rfl
  · rfl
  · rw [heq]
    unfold inverse_ordering
    rcases h1 : invert_action at0 with _ | v1 <;>
      rcases h2 : invert_action af0 with _ | v2 <;>
      dsimp only <;>
      first
        | exact ⟨hds2 _, by simp [DataSet.addDiags]⟩
        | (exfalso; rcases hinv with hinv | hinv <;> simp_all)

theorem c2_symmetric_inverse_witness :
    (unpack_simple_rsc_order
        { id := some "o2", first := some "A", thenId := some "B" }
        dsAB).orderings.map OrderCon.toOrderSpec =
      [{ lhRsc := some { id := "B" }, lhTask := some RSC_STOP,
         rhRsc := some { id := "A" }, rhTask := some RSC_STOP,
         flags := { optionalF := true, impliesFirst := true } },
       { lhRsc := some { id := "A" }, lhTask := some RSC_START,
         rhRsc := some { id := "B" }, rhTask := some RSC_START,
         flags := { optionalF := true, impliesThen := true,
                    runnableLeft := true } }] :=
  ((c2_symmetric_inverse
      { id := some "o2", first := some "A", thenId := some "B" }
      dsAB "o2" "A" "B" RSC_START RSC_START
      { data := { id := "A" } } { data := { id := "B" } }
      rfl rfl rfl rfl rfl (by decide) (by decide) rfl rfl (by decide)
      (by decide) rfl rfl).1 RSC_STOP RSC_STOP (by decide)
    (by decide)).trans (by decide)

theorem foldl_custom_mem {α : Type} (f : DataSet → α → DataSet)
    (hf : ∀ (ds : DataSet) (c : α) {o : OrderCon},
      o ∈ ds.orderings → o ∈ (f ds c).orderings)
    (l : List α) :
    ∀ (ds : DataSet) {o : OrderCon},
      o ∈ ds.orderings → o ∈ (l.foldl f ds).orderings := by
  induction l with
  | nil => intro ds o h; simpa using h
  | cons c l ih =>
    intro ds o h
    rw [List.foldl_cons]
    exact ih (f ds c) (hf ds c h)

theorem foldl_custom_side {α : Type} (f : DataSet → α → DataSet)
    (hf : ∀ (ds : DataSet) (c : α), (f ds c).side = ds.side)
    (l : List α) :
    ∀ ds : DataSet, (l.foldl f ds).side = ds.side := by
  induction l with
  | nil => intro ds; rfl
  | cons c l ih =>
    intro ds
    rw [List.foldl_cons]
    exact (ih (f ds c)).trans (hf ds c)

theorem get_update_pseudo_mem (t : String) (k : Int) (ds : DataSet) :
    ∃ p ∈ ((get_pseudo_op t ds).updatePseudo t
        (fun p => { p with requiredRunnableBefore := k,
                           requiresAny := true })).pseudoActions,
      p.task = t ∧ p.requiredRunnableBefore = k ∧ p.requiresAny = true := by
  unfold get_pseudo_op DataSet.updatePseudo
  rcases h : ds.pseudoActions.find? (fun p => p.task == t) with _ | p0
  · rw [h]
    refine ⟨{ task := t, requiredRunnableBefore := k, requiresAny := true },
      ?_, rfl, rfl, rfl⟩
    simp only [List.map_append]
    refine List.mem_append_right _ ?_
    simp
  · rw [h]
    have hp0t := List.find?_some h
    have hp0m : p0 ∈ ds.pseudoActions := List.mem_of_find?_eq_some h
    refine ⟨{ p0 with requiredRunnableBefore := k, requiresAny := true },
      ?_, by simpa using hp0t, rfl, rfl⟩
    have := List.mem_map_of_mem
      (fun p => if p.task == t then
        ({ p with requiredRunnableBefore := k, requiresAny := true } :
          PseudoAction) else p) hp0m
    simpa [hp0t] using this

theorem clone_min_ordering_shape (id : String) (rf : Resource) (af : String)
    (rt : Resource) (at2 : String) (f : OrderFlags) (k : Int)
    (ds : DataSet) :
    (∃ p ∈ (clone_min_ordering id rf af rt at2 f k ds).pseudoActions,
      p.task = CRM_OP_RELAXED_CLONE ++ ":" ++ id ∧
      p.requiredRunnableBefore = k ∧ p.requiresAny = true) ∧
    (∀ c ∈ rf.children,
      ∃ o ∈ (clone_min_ordering id rf af rt at2 f k ds).orderings,
        o.lhRsc = some c ∧ o.lhTask = some af ∧
        o.rhPseudo = some (CRM_OP_RELAXED_CLONE ++ ":" ++ id) ∧
        o.flags.oneOrMore = true ∧ o.flags.impliesThenPrinted = true) ∧
    (∃ o ∈ (clone_min_ordering id rf af rt at2 f k ds).orderings,
      o.lhPseudo = some (CRM_OP_RELAXED_CLONE ++ ":" ++ id) ∧
      o.rhRsc = some rt.data ∧ o.rhTask = some at2 ∧
      o.flags = f.orF { runnableLeft := true }) := by
  unfold clone_min_ordering
  set task := CRM_OP_RELAXED_CLONE ++ ":" ++ id with htask
  set ds3 := (get_pseudo_op task ds).updatePseudo task
    (fun p => { p with requiredRunnableBefore := k, requiresAny := true })
    with hds3
  set ds4 := rf.children.foldl
    (fun ds child =>
      custom_action_order
        { lhRsc := some child, lhTask := some af, rhPseudo := some task,
          flags := { oneOrMore := true, impliesThenPrinted := true } } ds)
    ds3 with hds4
  refine ⟨?_, ?_, ?_⟩
  · obtain ⟨p, hp, hprops⟩ := get_update_pseudo_mem task k ds
    refine ⟨p, ?_, hprops⟩
    have h5 := side_pseudoActions (custom_action_order_side
      { lhPseudo := some task, rhRsc := some rt.data, rhTask := some at2,
        flags := f.orF { runnableLeft := true } } ds4)
    rw [h5]
    have h4 : ds4.pseudoActions = ds3.pseudoActions :=
      side_pseudoActions (foldl_custom_side _
        (fun ds c => custom_action_order_side _ ds) rf.children ds3)
    rw [h4, hds3]
    exact hp
  · have hgen : ∀ (l : List RscData) (dsx : DataSet), ∀ c ∈ l,
        ∃ o ∈ (l.foldl (fun ds child =>
            custom_action_order
              { lhRsc := some child, lhTask := some af,
                rhPseudo := some task,
                flags := { oneOrMore := true,
                           impliesThenPrinted := true } } ds) dsx).orderings,
          o.lhRsc = some c ∧ o.lhTask = some af ∧
          o.rhPseudo = some task ∧
          o.flags.oneOrMore = true ∧ o.flags.impliesThenPrinted = true := by
      intro l
      induction l with
      | nil => intro dsx c hc; exact absurd hc (List.not_mem_nil c)
      | cons c0 l ih =>
        intro dsx c hc
        rw [List.foldl_cons]
        rcases List.mem_cons.mp hc with hc | hc
        · subst hc
          have hmem := custom_action_order_self_mem
            { lhRsc := some c, lhTask := some af, rhPseudo := some task,
              flags := { oneOrMore := true, impliesThenPrinted := true } }
            dsx (by simp [OrderSpec.rejected])
          obtain ⟨o, ho, hoeq⟩ := List.mem_map.mp hmem
          refine ⟨o, foldl_custom_mem _
            (fun ds c {o} h => custom_action_order_mem _ ds h) l _ ho, ?_⟩
          have h1 : o.toOrderSpec.lhRsc = some c := by rw [hoeq]
          have h2 : o.toOrderSpec.lhTask = some af := by rw [hoeq]
          have h3 : o.toOrderSpec.rhPseudo = some task := by rw [hoeq]
          have h4 : o.toOrderSpec.flags.oneOrMore = true := by rw [hoeq]
          have h5 : o.toOrderSpec.flags.impliesThenPrinted = true := by
            rw [hoeq]
          exact ⟨h1, h2, h3, h4, h5⟩
        · exact ih _ c hc
    intro c hc
    obtain ⟨o, ho, hprops⟩ := hgen rf.children ds3 c hc
    exact ⟨o, custom_action_order_mem _ _ ho, hprops⟩
  · have hmem := custom_action_order_self_mem
      { lhPseudo := some task, rhRsc := some rt.data, rhTask := some at2,
        flags := f.orF { runnableLeft := true } } ds4
      (by simp [OrderSpec.rejected])
    obtain ⟨o, ho, hoeq⟩ := List.mem_map.mp hmem
    have h1 : o.toOrderSpec.lhPseudo = some task := by rw [hoeq]
    have h2 : o.toOrderSpec.rhRsc = some rt.data := by rw [hoeq]
    have h3 : o.toOrderSpec.rhTask = some at2 := by rw [hoeq]
    have h4 : o.toOrderSpec.flags = f.orF { runnableLeft := true } := by
      rw [hoeq]
    exact ⟨o, ho, h1, h2, h3, h4⟩

/-- C3: for an ordering whose first resource is a clone with clone-min
k greater than 0, unpacking creates the clone-one-or-more pseudo-action with
required_runnable_before = k and the requires-any flag, an ordering with the
one-or-more flag from the first action of each clone instance to that
pseudo-action, and an ordering with the runnable-left flag from the
pseudo-action to the then action of the then resource; the deprecated
require-all=false on the constraint is treated as clone-min 1 with a
once-per-run deprecation warning. -/
theorem c3_clone_min_gating (x : OrderXml) (ds : DataSet)
    (idv fid tid cms : String) (k : Int) (rf rt : Resource)
    (hid : x.id = some idv)
    (hf : x.first = some fid) (hfi : x.firstInstance = none)
    (ht : x.thenId = some tid) (hti : x.thenInstance = none)
    (hrf : pe_find_constraint_resource ds.resources fid = some rf)
    (hrt : pe_find_constraint_resource ds.resources tid = some rt)
    (hclone : rf.data.isClone = true)
    (hcm : rf.data.cloneMin = some cms)
    (hk : pcmk__scan_min_int cms 0 = k)
    (hkpos : 0 < k) :
    (∃ p ∈ (unpack_simple_rsc_order x ds).pseudoActions,
      p.task = CRM_OP_RELAXED_CLONE ++ ":" ++ idv ∧
      p.requiredRunnableBefore = k ∧ p.requiresAny = true) ∧
    (∀ c ∈ rf.children,
      ∃ o ∈ (unpack_simple_rsc_order x ds).orderings,
        o.lhRsc = some c ∧
        o.lhTask = some (x.firstAction.getD RSC_START) ∧
        o.rhPseudo = some (CRM_OP_RELAXED_CLONE ++ ":" ++ idv) ∧
        o.flags.oneOrMore = true ∧ o.flags.impliesThenPrinted = true) ∧
    (∃ o ∈ (unpack_simple_rsc_order x ds).orderings,
      o.lhPseudo = some (CRM_OP_RELAXED_CLONE ++ ":" ++ idv) ∧
      o.rhRsc = some rt.data ∧
      o.rhTask = some (x.thenAction.getD (x.firstAction.getD RSC_START)) ∧
      o.flags.runnableLeft = true) ∧
    (∀ (rsc : Resource) (x2 : OrderXml) (ra : String),
      rsc.data.isClone = true → rsc.data.cloneMin = none →
      x2.requireAllAttr = some ra → crm_is_true_s ra = false →
      get_minimum_first_instances rsc x2 =
        (1, [Diag.warnOnce "require-all-deprecated"])) := by
  have hmrb : get_minimum_first_instances rf x = (k, []) := by
    simp [get_minimum_first_instances, hclone, hcm, hk]
  have heq := unpack_simple_rsc_order_eq x ds idv fid tid rf rt hid hf hfi
    ht hti hrf hrt
  simp only [hmrb] at heq
  rw [if_pos hkpos] at heq
  have hshape := clone_min_ordering_shape idv rf
    (x.firstAction.getD RSC_START) rt
    (x.thenAction.getD (x.firstAction.getD RSC_START))
    (handle_restart_type rt.data (get_ordering_type x.kindAttr x.scoreAttr).1
      { impliesThen := true }
      (ordering_flags_for_kind (get_ordering_type x.kindAttr x.scoreAttr).1
        (some (x.firstAction.getD RSC_START))
        (get_ordering_symmetry x.kindAttr x.scoreAttr x.symmetricalAttr none
          (get_ordering_type x.kindAttr x.scoreAttr).1).1))
    k
    (((ds.addDiags (get_ordering_type x.kindAttr x.scoreAttr).2).addDiags
      (get_ordering_symmetry x.kindAttr x.scoreAttr x.symmetricalAttr none
        (get_ordering_type x.kindAttr x.scoreAttr).1).2).addDiags [])
  rw [heq]
  split
  · -- the symmetric inverse is also created afterwards; membership survives
    refine ⟨?_, ?_, ?_, ?_⟩
    · obtain ⟨p, hp, hprops⟩ := hshape.1
      refine ⟨p, ?_, hprops⟩
      rw [(inverse_ordering_mono _ _ _ _ _ _).2.1]
      exact hp
    · intro c hc
      obtain ⟨o, ho, hprops⟩ := hshape.2.1 c hc
      exact ⟨o, (inverse_ordering_mono _ _ _ _ _ _).1 o ho,
        hprops.1, hprops.2.1, hprops.2.2.1, hprops.2.2.2.1,
        hprops.2.2.2.2⟩
    · obtain ⟨o, ho, h1, h2, h3, h4⟩ := hshape.2.2
      refine ⟨o, (inverse_ordering_mono _ _ _ _ _ _).1 o ho, h1, h2, h3, ?_⟩
      rw [h4]
      simp [OrderFlags.orF]
    · intro rsc x2 ra h1 h2 h3 h4
      simp [get_minimum_first_instances, h1, h2, h3, h4]
  · refine ⟨hshape.1, ?_, ?_, ?_⟩
    · intro c hc
      exact hshape.2.1 c hc
    · obtain ⟨o, ho, h1, h2, h3, h4⟩ := hshape.2.2
      refine ⟨o, ho, h1, h2, h3, ?_⟩
      rw [h4]
      simp [OrderFlags.orF]
    · intro rsc x2 ra h1 h2 h3 h4
      simp [get_minimum_first_instances, h1, h2, h3, h4]

/-- Working set holding a two-instance clone C with clone-min 2 and a
primitive B. -/
def dsClone : DataSet :=
  { resources :=
      [{ data := { id := "C", variant := 2, cloneMin := some "2" },
         children := [{ id := "C:0" }, { id := "C:1" }] },
       { data := { id := "B" } }] }

theorem c3_clone_min_gating_witness :
    (∃ p ∈ (unpack_simple_rsc_order
        { id := some "o3", first := some "C", thenId := some "B" }
        dsClone).pseudoActions,
      p.task = CRM_OP_RELAXED_CLONE ++ ":" ++ "o3" ∧
      p.requiredRunnableBefore = 2 ∧ p.requiresAny = true) ∧
    (∃ o ∈ (unpack_simple_rsc_order
        { id := some "o3", first := some "C", thenId := some "B" }
        dsClone).orderings,
      o.lhRsc = some { id := "C:0" } ∧ o.lhTask = some RSC_START ∧
      o.rhPseudo = some (CRM_OP_RELAXED_CLONE ++ ":" ++ "o3") ∧
      o.flags.oneOrMore = true ∧ o.flags.impliesThenPrinted = true) ∧
    (∃ o ∈ (unpack_simple_rsc_order
        { id := some "o3", first := some "C", thenId := some "B" }
        dsClone).orderings,
      o.lhPseudo = some (CRM_OP_RELAXED_CLONE ++ ":" ++ "o3") ∧
      o.rhRsc = some { id := "B" } ∧ o.rhTask = some RSC_START ∧
      o.flags.runnableLeft = true) := by
  have h := c3_clone_min_gating
    { id := some "o3", first := some "C", thenId := some "B" }
    dsClone "o3" "C" "B" "2" 2
    { data := { id := "C", variant := 2, cloneMin := some "2" },
      children := [{ id := "C:0" }, { id := "C:1" }] }
    { data := { id := "B" } }
    rfl rfl rfl rfl rfl (by decide) (by decide) (by decide) rfl
    (by decide) (by decide)
  exact ⟨h.1, h.2.1 { id := "C:0" } (by decide), h.2.2.1⟩

/- ===== C6 helpers ===== -/

/-- An anti-colocation ordering spec as anti_colocation_order creates it. -/
def antiSpec (a : RscData) (ft : String) (b : RscData) (tt : String) :
    OrderSpec :=
  { lhRsc := some a, lhTask := some ft, rhRsc := some b, rhTask := some tt,
    flags := { antiColocation := true } }

/-- The anti-colocation-flagged ordering specs of a working set, newest
first. -/
def antiFilter (ds : DataSet) : List OrderSpec :=
  (ds.orderings.map OrderCon.toOrderSpec).filter
    (fun s => s.flags.antiColocation)

/-- All anti-colocation pairs of one direction, in creation order. -/
def antiPairs (a : RscData) (fr : RscRole) (b : RscData) (tr : RscRole) :
    List OrderSpec :=
  (antiLoseTasks fr).flatMap
    (fun ft => (antiGainTasks tr).map (fun tt => antiSpec a ft b tt))

theorem custom_action_order_filter_anti (spec : OrderSpec) (ds : DataSet)
    (hv : spec.rejected = false) :
    antiFilter (custom_action_order spec ds) =
      (if spec.flags.antiColocation then [spec] else []) ++ antiFilter ds := by
  unfold antiFilter
  rw [custom_action_order_orderings spec ds hv, List.filter_append]
  have hmir : (migrationMirrors spec).reverse.filter
      (fun s => s.flags.antiColocation) = [] := by
    rw [List.filter_eq_nil_iff]
    intro m hm
    have := (migrationMirrors_shape spec m (List.mem_reverse.mp hm)).2.2.2.2.2.1
    simp [this]
  rw [hmir, List.filter_cons]
  split <;> simp_all

theorem anti_gain_fold_filter (a b : RscData) (ft : String)
    (tts : List String) :
    ∀ ds : DataSet,
      antiFilter (tts.foldl
        (fun ds tt => new_rsc_order a (some ft) b (some tt)
          { antiColocation := true } ds) ds) =
      (tts.map (fun tt => antiSpec a ft b tt)).reverse ++ antiFilter ds := by
  induction tts with
  | nil => intro ds; simp
  | cons tt tts ih =>
    intro ds
    rw [List.foldl_cons, ih]
    have hstep : antiFilter (new_rsc_order a (some ft) b (some tt)
        { antiColocation := true } ds) = antiSpec a ft b tt :: antiFilter ds := by
      unfold new_rsc_order
      rw [custom_action_order_filter_anti _ _ (by simp [OrderSpec.rejected])]
      rfl
    rw [hstep]
    simp

theorem anti_colocation_order_filter (a : RscData) (fr : RscRole)
    (b : RscData) (tr : RscRole) (ds : DataSet) :
    antiFilter (anti_colocation_order a fr b tr ds) =
      (antiPairs a fr b tr).reverse ++ antiFilter ds := by
  unfold anti_colocation_order antiPairs
  have hgen : ∀ (fts : List String) (ds : DataSet),
      antiFilter (fts.foldl
        (fun ds ft => (antiGainTasks tr).foldl
          (fun ds tt => new_rsc_order a (some ft) b (some tt)
            { antiColocation := true } ds) ds) ds) =
      (fts.flatMap (fun ft => (antiGainTasks tr).map
        (fun tt => antiSpec a ft b tt))).reverse ++ antiFilter ds := by
    intro fts
    induction fts with
    | nil => intro ds; simp
    | cons ft fts ih =>
      intro ds
      rw [List.foldl_cons, ih, anti_gain_fold_filter]
      simp
  exact hgen _ ds

theorem new_rsc_order_side (lh : RscData) (lt : Option String)
    (rh : RscData) (rt : Option String) (f : OrderFlags) (ds : DataSet) :
    (new_rsc_order lh lt rh rt f ds).side = ds.side := by
  unfold new_rsc_order
  rcases lt with _ | lt <;> rcases rt with _ | rt <;>
    first
      | rfl
      | exact custom_action_order_side _ _

theorem anti_colocation_order_side (a : RscData) (fr : RscRole)
    (b : RscData) (tr : RscRole) (ds : DataSet) :
    (anti_colocation_order a fr b tr ds).side = ds.side := by
  unfold anti_colocation_order
  exact foldl_custom_side _
    (fun ds ft => foldl_custom_side _
      (fun ds tt => new_rsc_order_side _ _ _ _ _ ds) _ ds)
    _ ds

/-- Lookup in a per-resource association list. -/
def lookupAssoc (l : List (String × List Colocation)) (key : String) :
    Option (List Colocation) :=
  (l.find? (fun kv => kv.1 == key)).map (fun kv => kv.2)

theorem updateAssoc_lookup (key : String)
    (f : List Colocation → List Colocation) :
    ∀ l : List (String × List Colocation),
      lookupAssoc (updateAssoc key f l) key =
        some (f ((lookupAssoc l key).getD [])) := by
  intro l
  induction l with
  | nil => simp [updateAssoc, lookupAssoc]
  | cons kv rest ih =>
    rcases kv with ⟨k, v⟩
    by_cases hk : k = key
    · subst hk
      simp [updateAssoc, lookupAssoc]
    · simp only [updateAssoc, if_neg hk]
      have hke : (k == key) = false := by simp [hk]
      simp only [lookupAssoc, List.find?_cons, hke] at ih ⊢
      exact ih

theorem gListInsertSorted_mem (cmp : α → α → Int) (x : α) :
    ∀ l : List α, x ∈ gListInsertSorted cmp x l := by
  intro l
  induction l with
  | nil => simp [gListInsertSorted]
  | cons y ys ih =>
    unfold gListInsertSorted
    split
    · exact List.mem_cons_of_mem y ih
    · exact List.mem_cons_self _ _

/-- C6: a colocation with score at or below minus INFINITY records the
constraint on both resources and the working set, and synthesises
anti-colocation orderings in both directions: one ordering with the
anti-colocation flag for each pair of a role-losing task of one resource
and a role-gaining task of the other, the task lists being demote for the
promoted role, else stop (plus promote for the unpromoted role), and
promote for the promoted target role, else start (plus demote for the
unpromoted role). -/
theorem c6_anti_colocation_orders (id : String) (node_attr : Option String)
    (score : Int) (lh rh : RscData) (state_lh state_rh : Option String)
    (infl : Bool) (ds : DataSet)
    (hscore : score ≤ -1000000) :
    (pcmk__new_colocation id node_attr score (some lh) (some rh)
        state_lh state_rh infl ds).colocations =
      ds.colocations ++
        [{ id := id, rscLh := lh, rscRh := rh, score := score,
           roleLh := colocationRole state_lh,
           roleRh := colocationRole state_rh,
           nodeAttribute := node_attr, influence := infl }] ∧
    (∃ l, lookupAssoc (pcmk__new_colocation id node_attr score (some lh)
        (some rh) state_lh state_rh infl ds).rscCons lh.id = some l ∧
      { id := id, rscLh := lh, rscRh := rh, score := score,
        roleLh := colocationRole state_lh,
        roleRh := colocationRole state_rh,
        nodeAttribute := node_attr, influence := infl } ∈ l) ∧
    (∃ l, lookupAssoc (pcmk__new_colocation id node_attr score (some lh)
        (some rh) state_lh state_rh infl ds).rscConsLhs rh.id = some l ∧
      { id := id, rscLh := lh, rscRh := rh, score := score,
        roleLh := colocationRole state_lh,
        roleRh := colocationRole state_rh,
        nodeAttribute := node_attr, influence := infl } ∈ l) ∧
    antiFilter (pcmk__new_colocation id node_attr score (some lh) (some rh)
        state_lh state_rh infl ds) =
      (antiPairs rh (colocationRole state_rh) lh
        (colocationRole state_lh)).reverse ++
      (antiPairs lh (colocationRole state_lh) rh
        (colocationRole state_rh)).reverse ++
      antiFilter ds := by
  have hnz : ¬ score = 0 := by omega
  have hneg : score ≤ -1000000 := hscore
  unfold pcmk__new_colocation
  rw [if_neg hnz]
  dsimp only
  rw [if_pos hneg]
  refine ⟨?_, ?_, ?_, ?_⟩
  · rw [side_colocations ((anti_colocation_order_side _ _ _ _ _).trans
      (anti_colocation_order_side _ _ _ _ _))]
  · rw [side_rscCons ((anti_colocation_order_side _ _ _ _ _).trans
      (anti_colocation_order_side _ _ _ _ _))]
    refine ⟨_, updateAssoc_lookup lh.id _ ds.rscCons, ?_⟩
    exact gListInsertSorted_mem _ _ _
  · rw [side_rscConsLhs ((anti_colocation_order_side _ _ _ _ _).trans
      (anti_colocation_order_side _ _ _ _ _))]
    refine ⟨_, updateAssoc_lookup rh.id _ ds.rscConsLhs, ?_⟩
    exact gListInsertSorted_mem _ _ _
  · rw [anti_colocation_order_filter, anti_colocation_order_filter,
        ← List.append_assoc]
    rfl

theorem c6_anti_colocation_orders_witness :
    antiFilter (pcmk__new_colocation "c1" none (-1000000)
        (some { id := "A" }) (some { id := "B" }) none none false dsAB) =
      [antiSpec { id := "B" } RSC_STOP { id := "A" } RSC_START,
       antiSpec { id := "A" } RSC_STOP { id := "B" } RSC_START] :=
  ((c6_anti_colocation_orders "c1" none (-1000000) { id := "A" }
      { id := "B" } none none false dsAB (by omega)).2.2.2).trans (by decide)

/- ===== Order-theoretic facts about the notification comparator ===== -/

theorem strcmpZ_nonpos {a b : String} : strcmpZ a b ≤ 0 ↔ a ≤ b := by
  unfold strcmpZ
  split_ifs with h1 h2
  · exact iff_of_true (by norm_num) (le_of_lt h1)
  · exact iff_of_true le_rfl (le_of_eq h2)
  · have hba : b < a := by
      rcases lt_trichotomy a b with h | h | h
      · exact absurd h h1
      · exact absurd h h2
      · exact h
    exact iff_of_false (by norm_num) (not_le.mpr hba)

theorem strcmpZ_eq_zero {a b : String} : strcmpZ a b = 0 ↔ a = b := by
  unfold strcmpZ
  split_ifs with h1 h2
  · exact iff_of_false (by norm_num) (ne_of_lt h1)
  · exact iff_of_true rfl h2
  · exact iff_of_false (by norm_num) h2

/-- Transitivity of the node-comparison tail. -/
theorem nodeCmp_trans {x y z : Option NodeInfo}
    (h1 : nodeCmp x y ≤ 0) (h2 : nodeCmp y z ≤ 0) : nodeCmp x z ≤ 0 := by
  rcases x with _ | x <;> rcases y with _ | y <;> rcases z with _ | z <;>
    simp [nodeCmp] at * <;>
    exact strcmpZ_nonpos.mpr
      (le_trans (strcmpZ_nonpos.mp h1) (strcmpZ_nonpos.mp h2))

/-- Totality of the node-comparison tail. -/
theorem nodeCmp_total (x y : Option NodeInfo) :
    nodeCmp x y ≤ 0 ∨ nodeCmp y x ≤ 0 := by
  rcases x with _ | x <;> rcases y with _ | y <;> simp [nodeCmp]
  rcases le_total x.id y.id with h | h
  · exact Or.inl (strcmpZ_nonpos.mpr h)
  · exact Or.inr (strcmpZ_nonpos.mpr h)

/-- The comparator value between entries carrying resources ra and rb with
the ids equal reduces to the node comparison. -/
theorem compare_eq_of_ids {ra : String} {na nb : Option NodeInfo} :
    compare_notify_entries ⟨some ra, na⟩ ⟨some ra, nb⟩ = nodeCmp na nb := by
  unfold compare_notify_entries
  simp [strcmpZ_eq_zero.mpr rfl]

theorem notifyLe_total (a b : NotifyEntry) : notifyLe a b ∨ notifyLe b a := by
  rcases a with ⟨ra, na⟩
  rcases b with ⟨rb, nb⟩
  unfold notifyLe compare_notify_entries
  rcases ra with _ | ra <;> rcases rb with _ | rb <;> simp
  rcases lt_trichotomy ra rb with h | h | h
  · left
    have ht : ¬ strcmpZ ra rb = 0 :=
      fun hc => ne_of_lt h (strcmpZ_eq_zero.mp hc)
    rw [if_neg ht]
    exact strcmpZ_nonpos.mpr (le_of_lt h)
  · subst h
    have ht : strcmpZ ra ra = 0 := strcmpZ_eq_zero.mpr rfl
    simp only [if_pos ht]
    exact nodeCmp_total na nb
  · right
    have ht : ¬ strcmpZ rb ra = 0 :=
      fun hc => ne_of_lt h (strcmpZ_eq_zero.mp hc)
    rw [if_neg ht]
    exact strcmpZ_nonpos.mpr (le_of_lt h)

theorem notifyLe_trans {a b c : NotifyEntry}
    (hab : notifyLe a b) (hbc : notifyLe b c) : notifyLe a c := by
  rcases a with ⟨ra, na⟩
  rcases b with ⟨rb, nb⟩
  rcases c with ⟨rc, nc⟩
  unfold notifyLe compare_notify_entries at *
  rcases ra with _ | ra <;> rcases rb with _ | rb <;> rcases rc with _ | rc <;>
    simp_all
  -- all three entries carry a resource
  have hrab : ra ≤ rb := by
    by_cases ht : strcmpZ ra rb = 0
    · exact le_of_eq (strcmpZ_eq_zero.mp ht)
    · rw [if_neg ht] at hab
      exact strcmpZ_nonpos.mp hab
  have hrbc : rb ≤ rc := by
    by_cases ht : strcmpZ rb rc = 0
    · exact le_of_eq (strcmpZ_eq_zero.mp ht)
    · rw [if_neg ht] at hbc
      exact strcmpZ_nonpos.mp hbc
  rcases lt_or_eq_of_le (le_trans hrab hrbc) with h | h
  · have ht : ¬ strcmpZ ra rc = 0 :=
      fun hc => ne_of_lt h (strcmpZ_eq_zero.mp hc)
    rw [if_neg ht]
    exact strcmpZ_nonpos.mpr (le_of_lt h)
  · have hab2 : ra = rb := le_antisymm hrab (h ▸ hrbc)
    have hbc2 : rb = rc := le_antisymm hrbc (hab2 ▸ h.symm.le)
    subst hab2
    subst hbc2
    have ht : strcmpZ ra ra = 0 := strcmpZ_eq_zero.mpr rfl
    simp only [if_pos ht] at hab hbc ⊢
    exact nodeCmp_trans hab hbc

instance : IsTotal NotifyEntry notifyLe := ⟨notifyLe_total⟩

instance : IsTrans NotifyEntry notifyLe := ⟨fun _ _ _ => notifyLe_trans⟩

/-- Between entries that both carry a resource, the comparator respects
resource-id order. -/
theorem notifyLe_ids {a b : NotifyEntry} {ra rb : String}
    (ha : a.rsc = some ra) (hb : b.rsc = some rb) (h : notifyLe a b) :
    ra ≤ rb := by
  rcases a with ⟨ra0, na⟩
  rcases b with ⟨rb0, nb⟩
  simp only at ha hb
  subst ha; subst hb
  unfold notifyLe compare_notify_entries at h
  by_cases ht : strcmpZ ra rb = 0
  · exact le_of_eq (strcmpZ_eq_zero.mp ht)
  · simp only [ht, ne_eq, not_false_eq_true, if_true] at h
    exact strcmpZ_nonpos.mp h

/-- Emission from a sorted entry list yields strictly increasing resource
ids (so the rendered resource list is sorted and duplicate-free). -/
theorem notifyEmit_strict (w : Bool) :
    ∀ (l : List NotifyEntry) (last : Option String),
      l.Sorted notifyLe →
      (∀ e ∈ l, e.rsc.isSome) →
      (∀ e ∈ l, ∀ v r, last = some v → e.rsc = some r → v ≤ r) →
      ((notifyEmit w l last).map Prod.fst).Pairwise (· < ·) ∧
      (∀ p ∈ notifyEmit w l last, ∀ v, last = some v → v < p.1) := by
  intro l
  induction l with
  | nil => intro last h1 h2 h3; simp [notifyEmit]
  | cons e rest ih =>
    intro last hsort hall hlast
    obtain ⟨rid, hrid⟩ := Option.isSome_iff_exists.mp
      (hall e (List.mem_cons_self e rest))
    have hsorted_rest : rest.Sorted notifyLe :=
      (List.sorted_cons.mp hsort).2
    have hrel : ∀ e2 ∈ rest, notifyLe e e2 :=
      (List.sorted_cons.mp hsort).1
    have hall_rest : ∀ e2 ∈ rest, e2.rsc.isSome :=
      fun e2 h2 => hall e2 (List.mem_cons_of_mem e h2)
    have hle_rest : ∀ e2 ∈ rest, ∀ r, e2.rsc = some r → rid ≤ r := by
      intro e2 h2 r hr
      exact notifyLe_ids hrid hr (hrel e2 h2)
    unfold notifyEmit
    rw [hrid]
    dsimp only
    by_cases hskip1 : w && e.node.isNone
    · rw [if_pos hskip1]
      exact ih last hsorted_rest hall_rest
        (fun e2 h2 v r hv hr => hlast e2 (List.mem_cons_of_mem e h2) v r
          hv hr)
    · rw [if_neg hskip1]
      by_cases hdup : some rid = last
      · rw [if_pos hdup]
        refine ih last hsorted_rest hall_rest ?_
        intro e2 h2 v r hv hr
        rw [hv] at hdup
        have : rid = v := by injection hdup
        subst this
        exact hle_rest e2 h2 r hr
      · rw [if_neg hdup]
        have hrec := ih (some rid) hsorted_rest hall_rest
          (fun e2 h2 v r hv hr => by
            have : v = rid := by injection hv.symm
            subst this
            exact hle_rest e2 h2 r hr)
        constructor
        · rw [List.map_cons]
          rw [List.pairwise_cons]
          constructor
          · intro q hq
            obtain ⟨p, hp, hpq⟩ := List.mem_map.mp hq
            rw [← hpq]
            exact hrec.2 p hp rid rfl
          · exact hrec.1
        · intro p hp v hv
          rcases List.mem_cons.mp hp with hp | hp
          · subst hp
            have hvle : v ≤ rid := hlast e (List.mem_cons_self e rest) v rid
              hv hrid
            have hvne : v ≠ rid := by
              intro hcon
              rw [hv, hcon] at hdup
              exact hdup rfl
            exact lt_of_le_of_ne hvle hvne
          · have h1 : rid < p.1 := hrec.2 p hp rid rfl
            have h2 : v ≤ rid := hlast e (List.mem_cons_self e rest) v rid
              hv hrid
            exact lt_of_le_of_lt h2 h1

/-- C9: every notification payload list is sorted by resource id then node
id before rendering (the returned list is a sorted permutation of the
input), consecutive entries with the same resource id are emitted only once
(the emitted resource ids are strictly increasing, hence duplicate-free),
and an empty list is rendered as a single space character. -/
theorem c9_notify_list_rendering (l : List NotifyEntry)
    (hall : ∀ e ∈ l, e.rsc.isSome) :
    ((notify_entries_to_strings l true true).1.Perm l ∧
     List.Sorted notifyLe (notify_entries_to_strings l true true).1) ∧
    (((notifyEmit true (List.insertionSort notifyLe l) none).map
        Prod.fst).Pairwise (· < ·) ∧
     ((notifyEmit true (List.insertionSort notifyLe l) none).map
        Prod.fst).Nodup) ∧
    notify_entries_to_strings [] true true = ([], some " ", some " ") := by
  have hsorted : List.Sorted notifyLe (List.insertionSort notifyLe l) :=
    List.sorted_insertionSort notifyLe l
  have hmem : ∀ e ∈ List.insertionSort notifyLe l, e.rsc.isSome :=
    fun e he =>
      hall e ((List.perm_insertionSort notifyLe l).mem_iff.mp he)
  have hstrict := notifyEmit_strict true (List.insertionSort notifyLe l)
    none hsorted hmem (fun e he v r hv => by cases hv)
  refine ⟨⟨List.perm_insertionSort notifyLe l, hsorted⟩,
    ⟨hstrict.1, ?_⟩, rfl⟩
  exact hstrict.1.imp (fun h => ne_of_lt h)

/-- Sample notification entry list with a duplicated resource id. -/
def l9 : List NotifyEntry :=
  [{ rsc := some "r1", node := some { id := "n2", uname := some "node2" } },
   { rsc := some "r1", node := some { id := "n1", uname := some "node1" } },
   { rsc := some "r0", node := some { id := "n3", uname := some "node3" } }]

theorem c9_notify_list_rendering_witness :
    List.Sorted notifyLe (notify_entries_to_strings l9 true true).1 ∧
    ((notifyEmit true (List.insertionSort notifyLe l9) none).map
      Prod.fst).Nodup :=
  ⟨(c9_notify_list_rendering l9 (by decide)).1.2,
   (c9_notify_list_rendering l9 (by decide)).2.1.2⟩

/-- C1 counterexample: inside the daemon the notify_available_uname list
follows the allowed-nodes hash-table iteration order unsorted, so two
passes whose tables hold the same nodes but iterate in different orders
render different payloads; the (configuration, status, now) inputs do not
determine that order, so byte-identical output is not guaranteed by those
inputs alone. -/
theorem c1_daemon_hash_order_counterexample :
    (notify_available_uname true
        [{ id := "2", uname := some "beta" },
         { id := "1", uname := some "alpha" }] ≠
      notify_available_uname true
        [{ id := "1", uname := some "alpha" },
         { id := "2", uname := some "beta" }]) ∧
    ([{ id := "2", uname := some "beta" },
      { id := "1", uname := some "alpha" }] : List NodeInfo).Perm
      [{ id := "1", uname := some "alpha" },
       { id := "2", uname := some "beta" }] := by
  constructor
  · decide
  · decide

instance : IsTotal NodeInfo nodeNameLe := ⟨fun a b => le_total _ _⟩

instance : IsTrans NodeInfo nodeNameLe := ⟨fun a b c => le_trans⟩

theorem filterMap_uname_congr :
    ∀ s1 s2 : List NodeInfo,
      s1.map (fun n => n.uname) = s2.map (fun n => n.uname) →
      s1.filterMap (fun n => n.uname) = s2.filterMap (fun n => n.uname) := by
  intro s1
  induction s1 with
  | nil =>
    intro s2 h
    cases s2 with
    | nil => rfl
    | cons b s2 => simp at h
  | cons a s1 ih =>
    intro s2 h
    cases s2 with
    | nil => simp at h
    | cons b s2 =>
      simp only [List.map_cons, List.cons.injEq] at h
      rw [List.filterMap_cons, List.filterMap_cons, h.1, ih s2 h.2]

/-- C1 as amended: outside the daemon the list is sorted by node name, so
any two passes whose allowed-nodes tables hold the same nodes (in any
iteration order) render the same notify_available_uname payload; inside the
daemon the hash iteration order is an additional input beyond
(configuration, status, now). -/
theorem c1_available_uname_sorted (l1 l2 : List NodeInfo)
    (hperm : l1.Perm l2)
    (hnames : ∀ n ∈ l1, n.uname.isSome) :
    notify_available_uname false l1 = notify_available_uname false l2 := by
  unfold notify_available_uname
  dsimp only [Bool.false_eq_true, if_false]
  unfold get_node_names_all
  have hnames2 : ∀ n ∈ l2, n.uname.isSome :=
    fun n hn => hnames n (hperm.mem_iff.mpr hn)
  have hp : (List.insertionSort nodeNameLe l1).Perm
      (List.insertionSort nodeNameLe l2) :=
    ((List.perm_insertionSort nodeNameLe l1).trans hperm).trans
      (List.perm_insertionSort nodeNameLe l2).symm
  have hs1 : List.Sorted (fun a b : String => a ≤ b)
      ((List.insertionSort nodeNameLe l1).map (fun n => n.uname.getD "")) :=
    List.Pairwise.map _ (fun a b h => h)
      (List.sorted_insertionSort nodeNameLe l1)
  have hs2 : List.Sorted (fun a b : String => a ≤ b)
      ((List.insertionSort nodeNameLe l2).map (fun n => n.uname.getD "")) :=
    List.Pairwise.map _ (fun a b h => h)
      (List.sorted_insertionSort nodeNameLe l2)
  haveI : IsAntisymm String (fun a b : String => a ≤ b) :=
    ⟨fun a b h1 h2 => le_antisymm h1 h2⟩
  have hkeys : (List.insertionSort nodeNameLe l1).map
        (fun n => n.uname.getD "") =
      (List.insertionSort nodeNameLe l2).map (fun n => n.uname.getD "") :=
    List.eq_of_perm_of_sorted (hp.map _) hs1 hs2
  have hsome : ∀ (l : List NodeInfo), (∀ n ∈ l, n.uname.isSome) →
      l.map (fun n => n.uname) =
        (l.map (fun n => n.uname.getD "")).map some := by
    intro l hl
    rw [List.map_map]
    refine List.map_congr_left ?_
    intro n hn
    rcases Option.isSome_iff_exists.mp (hl n hn) with ⟨u, hu⟩
    simp [hu]
  have hmem1 : ∀ n ∈ List.insertionSort nodeNameLe l1, n.uname.isSome :=
    fun n hn =>
      hnames n ((List.perm_insertionSort nodeNameLe l1).mem_iff.mp hn)
  have hmem2 : ∀ n ∈ List.insertionSort nodeNameLe l2, n.uname.isSome :=
    fun n hn =>
      hnames2 n ((List.perm_insertionSort nodeNameLe l2).mem_iff.mp hn)
  have hmap : (List.insertionSort nodeNameLe l1).map (fun n => n.uname) =
      (List.insertionSort nodeNameLe l2).map (fun n => n.uname) := by
    rw [hsome _ hmem1, hsome _ hmem2, hkeys]
  exact congrArg joinWords (filterMap_uname_congr _ _ hmap)

theorem c1_available_uname_sorted_witness :
    notify_available_uname false
        [{ id := "2", uname := some "beta" },
         { id := "1", uname := some "alpha" }] =
      notify_available_uname false
        [{ id := "1", uname := some "alpha" },
         { id := "2", uname := some "beta" }] :=
  c1_available_uname_sorted
    [{ id := "2", uname := some "beta" },
     { id := "1", uname := some "alpha" }]
    [{ id := "1", uname := some "alpha" },
     { id := "2", uname := some "beta" }]
    (by decide) (by decide)

/- ===== Cross-set require-all gating (order_rsc_sets) ===== -/

theorem addDiags_pseudo (ds : DataSet) (d : List Diag) :
    (ds.addDiags d).pseudoActions = ds.pseudoActions := rfl

theorem orderSetRefsIntoPseudo_pseudo (task : String) (a1 : Option String) :
    ∀ (refs : List String) (ds : DataSet),
      (orderSetRefsIntoPseudo task a1 refs ds).2.pseudoActions =
        ds.pseudoActions := by
  intro refs
  induction refs with
  | nil => intro ds; rfl
  | cons r rest ih =>
    intro ds
    unfold orderSetRefsIntoPseudo
    split
    · rfl
    · exact (ih _).trans
        (side_pseudoActions (custom_action_order_side _ _))

theorem orderPseudoIntoSetRefs_pseudo (task : String) (a2 : Option String)
    (flags : OrderFlags) :
    ∀ (refs : List String) (ds : DataSet),
      (orderPseudoIntoSetRefs task a2 flags refs ds).2.pseudoActions =
        ds.pseudoActions := by
  intro refs
  induction refs with
  | nil => intro ds; rfl
  | cons r rest ih =>
    intro ds
    unfold orderPseudoIntoSetRefs
    split
    · rfl
    · exact (ih _).trans
        (side_pseudoActions (custom_action_order_side _ _))

theorem orderRsc1IntoRefs_pseudo (r1 : RscData) (a1 a2 : Option String)
    (flags : OrderFlags) :
    ∀ (refs : List String) (ds : DataSet),
      (orderRsc1IntoRefs r1 a1 a2 flags refs ds).2.pseudoActions =
        ds.pseudoActions := by
  intro refs
  induction refs with
  | nil => intro ds; rfl
  | cons r rest ih =>
    intro ds
    unfold orderRsc1IntoRefs
    split
    · rfl
    · exact (ih _).trans
        (side_pseudoActions (new_rsc_order_side _ _ _ _ _ _))

theorem orderRefsIntoRsc2_pseudo (r2 : RscData) (a1 a2 : Option String)
    (flags : OrderFlags) :
    ∀ (refs : List String) (ds : DataSet),
      (orderRefsIntoRsc2 r2 a1 a2 flags refs ds).2.pseudoActions =
        ds.pseudoActions := by
  intro refs
  induction refs with
  | nil => intro ds; rfl
  | cons r rest ih =>
    intro ds
    unfold orderRefsIntoRsc2
    split
    · rfl
    · exact (ih _).trans
        (side_pseudoActions (new_rsc_order_side _ _ _ _ _ _))

theorem orderRefsCross_pseudo (refs2 : List String) (a1 a2 : Option String)
    (flags : OrderFlags) :
    ∀ (refs : List String) (ds : DataSet),
      (orderRefsCross refs2 a1 a2 flags refs ds).2.pseudoActions =
        ds.pseudoActions := by
  intro refs
  induction refs with
  | nil => intro ds; rfl
  | cons r rest ih =>
    intro ds
    unfold orderRefsCross
    split
    · rfl
    · rename_i rsc hfind
      split
      next ds1 heq =>
        have h2 := orderRsc1IntoRefs_pseudo rsc.data a1 a2 flags refs2 ds
        rw [heq] at h2
        exact h2
      next ds1 heq =>
        have h2 := orderRsc1IntoRefs_pseudo rsc.data a1 a2 flags refs2 ds
        rw [heq] at h2
        exact (ih ds1).trans h2

theorem orderRscSetsSeq_pseudo (set1 set2 : SetXml)
    (symmetry : OrderingSymmetry) (a1 a2 : Option String)
    (flags : OrderFlags) (ds : DataSet) :
    (orderRscSetsSeq set1 set2 symmetry a1 a2 flags ds).2.pseudoActions =
      ds.pseudoActions := by
  simp only [orderRscSetsSeq]
  split
  · rfl
  · split
    · rfl
    · split
      · exact Eq.trans
          (side_pseudoActions (new_rsc_order_side _ _ _ _ _ _)) rfl
      · exact Eq.trans (orderRsc1IntoRefs_pseudo _ _ _ _ _ _) rfl
      · exact Eq.trans (orderRefsIntoRsc2_pseudo _ _ _ _ _ _) rfl
      · exact Eq.trans (orderRefsCross_pseudo _ _ _ _ _ _) rfl

theorem get_update_pseudo_any_mem (t : String) (ds : DataSet) :
    ∃ p ∈ ((get_pseudo_op t ds).updatePseudo t
        (fun p => { p with requiresAny := true })).pseudoActions,
      p.task = t ∧ p.requiresAny = true := by
  unfold get_pseudo_op DataSet.updatePseudo
  rcases h : ds.pseudoActions.find? (fun p => p.task == t) with _ | p0
  · rw [h]
    refine ⟨{ task := t, requiresAny := true }, ?_, rfl, rfl⟩
    simp only [List.map_append]
    refine List.mem_append_right _ ?_
    simp
  · rw [h]
    have hp0t := List.find?_some h
    have hp0m : p0 ∈ ds.pseudoActions := List.mem_of_find?_eq_some h
    refine ⟨{ p0 with requiresAny := true }, ?_, by simpa using hp0t, rfl⟩
    have := List.mem_map_of_mem
      (fun p => if p.task == t then
        ({ p with requiresAny := true } : PseudoAction) else p) hp0m
    simpa [hp0t] using this

theorem orderRscSetsRelaxed_pseudo_mem (set1 set2 : SetXml)
    (a1 a2 : Option String) (flags : OrderFlags) (ds : DataSet) :
    ∃ p ∈ (orderRscSetsRelaxed set1 set2 a1 a2 flags ds).2.pseudoActions,
      p.task = CRM_OP_RELAXED_SET ++ ":" ++ set1.id.getD "" ∧
      p.requiresAny = true := by
  obtain ⟨p, hp, h1, h2⟩ := get_update_pseudo_any_mem
    (CRM_OP_RELAXED_SET ++ ":" ++ set1.id.getD "") ds
  refine ⟨p, ?_, h1, h2⟩
  have h3 := orderSetRefsIntoPseudo_pseudo
    (CRM_OP_RELAXED_SET ++ ":" ++ set1.id.getD "") a1 set1.refs
    ((get_pseudo_op (CRM_OP_RELAXED_SET ++ ":" ++ set1.id.getD "")
        ds).updatePseudo (CRM_OP_RELAXED_SET ++ ":" ++ set1.id.getD "")
      (fun p => { p with requiresAny := true }))
  simp only [orderRscSetsRelaxed]
  split
  next ds3 heq =>
    rw [heq] at h3
    exact h3.symm ▸ hp
  next ds3 heq =>
    rw [heq] at h3
    rw [orderPseudoIntoSetRefs_pseudo]
    exact h3.symm ▸ hp

/-- C10: in cross-set ordering with the first set declaring
require-all=false, the requires-any pseudo-action treatment applies only
when the effective first action (after inversion for the symmetric inverse
relation) is neither stop nor demote: for a stop or demote effective action,
require-all is treated as true, the ordinary pairwise branch runs and the
pseudo-action list is left untouched; otherwise the relaxed branch runs and
the one-or-more pseudo-action named after the set is registered with
requires-any. -/
theorem c10_require_all_gating (set1 set2 : SetXml) (kind : PeOrderKind)
    (symmetry : OrderingSymmetry) (ds : DataSet) (s : String)
    (hra : set1.requireAll = some s) (hf : crm_is_true_s s = false) :
    (effStopDemote (effAction set1.action symmetry) = true →
       order_rsc_sets set1 set2 kind symmetry ds =
         orderRscSetsSeq set1 set2 symmetry (effAction set1.action symmetry)
           (effAction set2.action symmetry)
           (ordering_flags_for_kind kind (effAction set2.action symmetry)
             symmetry) ds ∧
       (order_rsc_sets set1 set2 kind symmetry ds).2.pseudoActions =
         ds.pseudoActions) ∧
    (effStopDemote (effAction set1.action symmetry) = false →
       order_rsc_sets set1 set2 kind symmetry ds =
         orderRscSetsRelaxed set1 set2 (effAction set1.action symmetry)
           (effAction set2.action symmetry)
           (ordering_flags_for_kind kind (effAction set2.action symmetry)
             symmetry) ds ∧
       ∃ p ∈ (order_rsc_sets set1 set2 kind symmetry ds).2.pseudoActions,
         p.task = CRM_OP_RELAXED_SET ++ ":" ++ set1.id.getD "" ∧
         p.requiresAny = true) := by
  constructor
  · intro h
    have heq : order_rsc_sets set1 set2 kind symmetry ds =
        orderRscSetsSeq set1 set2 symmetry (effAction set1.action symmetry)
          (effAction set2.action symmetry)
          (ordering_flags_for_kind kind (effAction set2.action symmetry)
            symmetry) ds := by
      simp [order_rsc_sets, h]
    refine ⟨heq, ?_⟩
    rw [heq]
    exact orderRscSetsSeq_pseudo set1 set2 symmetry _ _ _ ds
  · intro h
    have heq : order_rsc_sets set1 set2 kind symmetry ds =
        orderRscSetsRelaxed set1 set2 (effAction set1.action symmetry)
          (effAction set2.action symmetry)
          (ordering_flags_for_kind kind (effAction set2.action symmetry)
            symmetry) ds := by
      simp [order_rsc_sets, hra, hf, h]
    refine ⟨heq, ?_⟩
    rw [heq]
    exact orderRscSetsRelaxed_pseudo_mem set1 set2 _ _ _ ds

theorem c10_require_all_gating_witness :
    (order_rsc_sets
        { id := some "s1", action := some "stop",
          requireAll := some "false" }
        { id := some "s2" }
        PeOrderKind.mandatory OrderingSymmetry.symmetric
        emptyDS).2.pseudoActions = emptyDS.pseudoActions :=
  ((c10_require_all_gating
      { id := some "s1", action := some "stop",
        requireAll := some "false" }
      { id := some "s2" }
      PeOrderKind.mandatory OrderingSymmetry.symmetric emptyDS "false"
      rfl (by decide)).1 (by decide)).2

/- ===== Tag expansion characterization (expand_tags_in_sets) ===== -/

/-- One-level substitution of one set member: a known resource stays as it
is, a tag or template reference is replaced by its member list in declared
order. -/
def substOne (ds : DataSet) (r : String) : List String :=
  match valid_resource_or_tag ds r with
  | (some _, _, _) => [r]
  | (none, some members, _) => members
  | (none, none, _) => [r]

/-- A set member that is not a known resource (under goodRef this makes it
a tag or template reference). -/
def isTagRef (ds : DataSet) (r : String) : Bool :=
  (pe_find_constraint_resource ds.resources r).isNone

/-- A set member the expansion handles without error in one step: a known
resource, or a tag found without warnings whose members are all known
resources. -/
def goodRef (ds : DataSet) (r : String) : Bool :=
  match pe_find_constraint_resource ds.resources r with
  | some _ => true
  | none =>
    match pe_find_constraint_tag ds r with
    | (some members, []) =>
      members.all
        (fun m => (pe_find_constraint_resource ds.resources m).isSome)
    | _ => false

/-- A set member that is neither a known resource nor a tag. -/
def badRef (ds : DataSet) (r : String) : Bool :=
  (pe_find_constraint_resource ds.resources r).isNone &&
    ((pe_find_constraint_tag ds r).1).isNone

/-- Fuel spent by expandSetRefs on one member, counting the members a tag
splices in. -/
def refCost (ds : DataSet) (r : String) : Nat :=
  match valid_resource_or_tag ds r with
  | (none, some members, _) => 1 + members.length
  | _ => 1

/-- Fuel spent by expandSetRefs on a whole member list. -/
def setCost (ds : DataSet) (refs : List String) : Nat :=
  (refs.map (refCost ds)).sum

theorem refCost_pos (ds : DataSet) (r : String) : 1 ≤ refCost ds r := by
  unfold refCost
  split <;> omega

theorem flatMap_substOne_resources (ds : DataSet) (l : List String)
    (h : ∀ m ∈ l,
      (pe_find_constraint_resource ds.resources m).isSome = true) :
    l.flatMap (substOne ds) = l := by
  induction l with
  | nil => rfl
  | cons m rest ih =>
    rw [List.flatMap_cons, ih (fun x hx => h x (List.mem_cons_of_mem m hx))]
    have hm := h m (List.mem_cons_self m rest)
    rcases hf : pe_find_constraint_resource ds.resources m with _ | res
    · rw [hf] at hm
      simp at hm
    · simp [substOne, valid_resource_or_tag, hf]

theorem setCost_append (ds : DataSet) (a b : List String) :
    setCost ds (a ++ b) = setCost ds a + setCost ds b := by
  simp [setCost]

theorem setCost_resources (ds : DataSet) (l : List String)
    (h : ∀ m ∈ l,
      (pe_find_constraint_resource ds.resources m).isSome = true) :
    setCost ds l = l.length := by
  induction l with
  | nil => rfl
  | cons m rest ih =>
    have hm := h m (List.mem_cons_self m rest)
    have hrest := ih (fun x hx => h x (List.mem_cons_of_mem m hx))
    rcases hf : pe_find_constraint_resource ds.resources m with _ | res
    · rw [hf] at hm
      simp at hm
    · have h1 : refCost ds m = 1 := by
        simp [refCost, valid_resource_or_tag, hf]
      simp only [setCost, List.map_cons, List.sum_cons,
                 List.length_cons] at hrest ⊢
      rw [h1, hrest]
      omega

theorem goodRef_tag_cases (ds : DataSet) (r : String)
    (hf : pe_find_constraint_resource ds.resources r = none)
    (hg : goodRef ds r = true) :
    ∃ members, pe_find_constraint_tag ds r = (some members, []) ∧
      ∀ m ∈ members,
        (pe_find_constraint_resource ds.resources m).isSome = true := by
  unfold goodRef at hg
  rw [hf] at hg
  rcases htag : pe_find_constraint_tag ds r with ⟨om, dg⟩
  rw [htag] at hg
  rcases om with _ | members
  · simp at hg
  · rcases dg with _ | ⟨d0, dg⟩
    · exact ⟨members, rfl, by simpa [List.all_eq_true] using hg⟩
    · simp at hg

theorem goodRef_of_resource (ds : DataSet) (x : String)
    (h : (pe_find_constraint_resource ds.resources x).isSome = true) :
    goodRef ds x = true := by
  unfold goodRef
  rcases h2 : pe_find_constraint_resource ds.resources x with _ | y
  · rw [h2] at h
    simp at h
  · rfl

/-- With enough fuel, the inner expansion loop maps every member list with
in-place one-level substitution when each member is a resource or a tag
over resources, emits no diagnostics, and reports whether any tag reference
was seen. -/
theorem expandSetRefs_good (ds : DataSet) :
    ∀ (fuel : Nat) (refs : List String),
      (∀ r ∈ refs, goodRef ds r = true) →
      setCost ds refs ≤ fuel →
      expandSetRefs ds fuel refs =
        (some (refs.flatMap (substOne ds), refs.any (isTagRef ds)), []) := by
  intro fuel
  induction fuel with
  | zero =>
    intro refs hg hc
    match refs with
    | [] => rfl
    | r :: rest =>
      exfalso
      have hpos := refCost_pos ds r
      simp only [setCost, List.map_cons, List.sum_cons] at hc
      omega
  | succ n ih =>
    intro refs hg hc
    match refs with
    | [] => rfl
    | r :: rest =>
      have hgr := hg r (List.mem_cons_self r rest)
      have hgrest : ∀ x ∈ rest, goodRef ds x = true :=
        fun x hx => hg x (List.mem_cons_of_mem r hx)
      simp only [setCost, List.map_cons, List.sum_cons] at hc
      rcases hf : pe_find_constraint_resource ds.resources r with _ | res
      · obtain ⟨members, htag, hmem⟩ := goodRef_tag_cases ds r hf hgr
        have hv : valid_resource_or_tag ds r = (none, some members, []) := by
          simp [valid_resource_or_tag, hf, htag]
        have hc1 : refCost ds r = 1 + members.length := by
          simp [refCost, hv]
        rw [hc1] at hc
        have hcm : setCost ds (members ++ rest) ≤ n := by
          rw [setCost_append, setCost_resources ds members hmem]
          simp only [setCost]
          omega
        have hgm : ∀ x ∈ members ++ rest, goodRef ds x = true := by
          intro x hx
          rcases List.mem_append.mp hx with hx | hx
          · exact goodRef_of_resource ds x (hmem x hx)
          · exact hgrest x hx
        have ihm := ih (members ++ rest) hgm hcm
        simp only [expandSetRefs]
        rw [hv]
        dsimp only
        rw [ihm]
        dsimp only
        simp [List.flatMap_cons, List.flatMap_append,
              flatMap_substOne_resources ds members hmem, substOne, hv,
              isTagRef, hf]
      · have hv : valid_resource_or_tag ds r = (some res, none, []) := by
          simp [valid_resource_or_tag, hf]
        have hc1 : refCost ds r = 1 := by
          simp [refCost, hv]
        rw [hc1] at hc
        have hcr : setCost ds rest ≤ n := by
          simp only [setCost]
          omega
        have ihr := ih rest hgrest hcr
        simp only [expandSetRefs]
        rw [hv]
        dsimp only
        rw [ihr]
        dsimp only
        simp [substOne, hv, isTagRef, hf]

/-- The outer expansion loop over all good sets: each member list is
substituted in place, no diagnostics, and the any-references flag is the
disjunction over the sets. -/
theorem expandSetsGo_good (ds : DataSet) (fuel : Nat) :
    ∀ sets : List (List String),
      (∀ s ∈ sets, (∀ r ∈ s, goodRef ds r = true) ∧
        setCost ds s ≤ fuel) →
      expandSetsGo fuel ds sets =
        (some (sets.map (fun s => s.flatMap (substOne ds)),
               sets.any (fun s => s.any (isTagRef ds))), []) := by
  intro sets
  induction sets with
  | nil => intro h; rfl
  | cons s rest ih =>
    intro h
    have hs := h s (List.mem_cons_self s rest)
    have hrest := ih (fun x hx => h x (List.mem_cons_of_mem s hx))
    simp only [expandSetsGo]
    rw [expandSetRefs_good ds fuel s hs.1 hs.2]
    dsimp only
    rw [hrest]
    dsimp only
    simp

/-- Reaching a member that is neither a resource nor a tag fails the inner
loop with the lookup warnings followed by the configuration error. -/
theorem expandSetRefs_bad (ds : DataSet) :
    ∀ (fuel : Nat) (refs1 : List String) (r : String)
      (refs2 : List String),
      (∀ x ∈ refs1, goodRef ds x = true) →
      badRef ds r = true →
      setCost ds refs1 < fuel →
      expandSetRefs ds fuel (refs1 ++ r :: refs2) =
        (none, (pe_find_constraint_tag ds r).2 ++
          [Diag.configErr "not-a-valid-resource-or-tag"]) := by
  intro fuel
  induction fuel with
  | zero =>
    intro refs1 r refs2 hg hb hc
    omega
  | succ n ih =>
    intro refs1 r refs2 hg hb hc
    match refs1 with
    | [] =>
      have hb2 := hb
      unfold badRef at hb2
      rw [Bool.and_eq_true] at hb2
      have hf : pe_find_constraint_resource ds.resources r = none :=
        Option.isNone_iff_eq_none.mp hb2.1
      have ht1 : (pe_find_constraint_tag ds r).1 = none :=
        Option.isNone_iff_eq_none.mp hb2.2
      have hv : valid_resource_or_tag ds r =
          (none, none, (pe_find_constraint_tag ds r).2) := by
        unfold valid_resource_or_tag
        rw [hf]
        dsimp only
        rw [ht1]
      simp only [List.nil_append, expandSetRefs]
      rw [hv]
    | x :: rest1 =>
      have hgx := hg x (List.mem_cons_self x rest1)
      have hgrest : ∀ y ∈ rest1, goodRef ds y = true :=
        fun y hy => hg y (List.mem_cons_of_mem x hy)
      simp only [setCost, List.map_cons, List.sum_cons] at hc
      rcases hfx : pe_find_constraint_resource ds.resources x with _ | res
      · obtain ⟨members, htag, hmem⟩ := goodRef_tag_cases ds x hfx hgx
        have hv : valid_resource_or_tag ds x = (none, some members, []) := by
          simp [valid_resource_or_tag, hfx, htag]
        have hc1 : refCost ds x = 1 + members.length := by
          simp [refCost, hv]
        rw [hc1] at hc
        have hcm : setCost ds (members ++ rest1) < n := by
          rw [setCost_append, setCost_resources ds members hmem]
          simp only [setCost]
          omega
        have hgm : ∀ y ∈ members ++ rest1, goodRef ds y = true := by
          intro y hy
          rcases List.mem_append.mp hy with hy | hy
          · exact goodRef_of_resource ds y (hmem y hy)
          · exact hgrest y hy
        have ihm := ih (members ++ rest1) r refs2 hgm hb hcm
        rw [List.append_assoc] at ihm
        simp only [List.cons_append, expandSetRefs]
        rw [hv]
        dsimp only
        simp only [List.append_eq]
        rw [ihm]
        dsimp only
        simp
      · have hv : valid_resource_or_tag ds x = (some res, none, []) := by
          simp [valid_resource_or_tag, hfx]
        have hc1 : refCost ds x = 1 := by
          simp [refCost, hv]
        rw [hc1] at hc
        have hcr : setCost ds rest1 < n := by
          simp only [setCost]
          omega
        have ihr := ih rest1 r refs2 hgrest hb hcr
        simp only [List.cons_append, expandSetRefs]
        rw [hv]
        dsimp only
        simp only [List.append_eq]
        rw [ihr]
        dsimp only
        simp

/-- A failing set fails the whole outer loop, carrying exactly its
diagnostics past any good sets before it. -/
theorem expandSetsGo_bad (ds : DataSet) (fuel : Nat) (bad : List String)
    (d : List Diag) (hbad : expandSetRefs ds fuel bad = (none, d)) :
    ∀ (sets0 sets2 : List (List String)),
      (∀ s ∈ sets0, (∀ r ∈ s, goodRef ds r = true) ∧
        setCost ds s ≤ fuel) →
      expandSetsGo fuel ds (sets0 ++ bad :: sets2) = (none, d) := by
  intro sets0
  induction sets0 with
  | nil =>
    intro sets2 h
    simp only [List.nil_append, expandSetsGo]
    rw [hbad]
  | cons s rest ih =>
    intro sets2 h
    have hs := h s (List.mem_cons_self s rest)
    simp only [List.cons_append, expandSetsGo]
    rw [expandSetRefs_good ds fuel s hs.1 hs.2]
    dsimp only
    simp only [List.append_eq]
    rw [ih sets2 (fun x hx => h x (List.mem_cons_of_mem s hx))]
    dsimp only
    simp

/-- C8: tag expansion over the resource sets of a constraint replaces each
tag or template reference in place by one entry per member, in the tag's
declared member order, leaving the relative order of all other entries
unchanged; when no set holds a tag reference the sets are reported
unchanged (the C function returns NULL and the caller keeps the original
XML); and a set entry that is neither a known resource nor a tag rejects
the sets of the whole constraint with a configuration-error diagnostic. -/
theorem c8_tag_expansion (ds : DataSet) (fuel : Nat)
    (sets : List (List String))
    (hgood : ∀ s ∈ sets, (∀ r ∈ s, goodRef ds r = true) ∧
      setCost ds s ≤ fuel) :
    (sets.any (fun s => s.any (isTagRef ds)) = true →
       expand_tags_in_sets fuel ds sets =
         (ExpandResult.expanded
           (sets.map (fun s => s.flatMap (substOne ds))), [])) ∧
    (sets.any (fun s => s.any (isTagRef ds)) = false →
       expand_tags_in_sets fuel ds sets = (ExpandResult.unchanged, [])) ∧
    (∀ (refs1 : List String) (r : String) (refs2 : List String)
       (sets2 : List (List String)),
       (∀ x ∈ refs1, goodRef ds x = true) →
       badRef ds r = true →
       setCost ds refs1 < fuel →
       expand_tags_in_sets fuel ds
           (sets ++ (refs1 ++ r :: refs2) :: sets2) =
         (ExpandResult.err,
          (pe_find_constraint_tag ds r).2 ++
            [Diag.configErr "not-a-valid-resource-or-tag"])) := by
  refine ⟨?_, ?_, ?_⟩
  · intro hany
    unfold expand_tags_in_sets
    rw [expandSetsGo_good ds fuel sets hgood]
    dsimp only
    simp [hany]
  · intro hnone
    unfold expand_tags_in_sets
    rw [expandSetsGo_good ds fuel sets hgood]
    dsimp only
    simp [hnone]
  · intro refs1 r refs2 sets2 hg1 hb hc
    unfold expand_tags_in_sets
    rw [expandSetsGo_bad ds fuel (refs1 ++ r :: refs2) _
        (expandSetRefs_bad ds fuel refs1 r refs2 hg1 hb hc)
        sets sets2 hgood]

/-- Working set with resources A and B and a tag T whose single member is
B, for the concrete tag-expansion evaluation. -/
def dsTagged : DataSet :=
  { resources := [{ data := { id := "A" } }, { data := { id := "B" } }],
    tags := [("T", some ["B"])] }

theorem c8_tag_expansion_witness :
    expand_tags_in_sets 9 dsTagged [["A", "T"]] =
      (ExpandResult.expanded
        ([["A", "T"]].map (fun s => s.flatMap (substOne dsTagged))), []) :=
  (c8_tag_expansion dsTagged 9 [["A", "T"]] (by decide)).1 (by decide)

end Pacemaker
